import Mathlib

/-!
Verification of the simulation core of a Flappy-Bird-style game
(`src/main.py`): kinematic body integration, obstacle stream spawning
and recycling, scoring, high-score tracking, and the menu / playing /
game-over / confirm-exit state machine.

Python floats are embedded as rationals (all constants involved are
dyadic, so every arithmetic step of the source is exact), Python ints as
`Int`, and `random.randint lo hi` as `lo + r % (hi - lo + 1)` for a
supplied draw `r : Nat`, which realises exactly the contract of
`randint` (a value in `[lo, hi]`).  Object identity of `PipePair`
instances (the source compares pipe objects with `!=`, which is
identity for this class) is embedded as a unique `id : Nat` handed out
by a counter, mirroring the fact that every `PipePair()` call creates a
fresh object.
-/

namespace Flappy

/-- Screen width in pixels (`SCREEN_WIDTH` in `main.py`). -/
def SCREEN_WIDTH : Int := 800

/-- Screen height in pixels (`SCREEN_HEIGHT` in `main.py`). -/
def SCREEN_HEIGHT : Int := 600

/-- Minimum height of a pipe span (`MAX_PIPE_HEIGHT` in `main.py`);
it is the margin the random gap position always respects. -/
def MAX_PIPE_HEIGHT : Int := 100

/-- Width of every pipe (`PIPE_WIDTH` in `main.py`). -/
def PIPE_WIDTH : Int := 80

/-! ## Kinematic body (`class Bird`) -/

/-- State of the bird.  `x`, `y`, `velocity` are the name-mangled
private attributes `_Bird__x`, `_Bird__y`, `_Bird__velocity`;
`gravity` and `jumpForce` the corresponding constants set in
`Bird.__init__`; `height` and `width` are the dimensions of the
surface passed to the constructor; `rectX`, `rectY`, `rectW`, `rectH`
mirror the pygame `rect` used for collision detection (integer
valued, float assignments truncate). -/
structure Bird where
  x : ℚ
  y : ℚ
  velocity : ℚ
  gravity : ℚ
  jumpForce : ℚ
  width : ℚ
  height : ℚ
  rectX : Int
  rectY : Int
  rectW : Int
  rectH : Int
  deriving DecidableEq

/-- `Bird(x, y, surface)` for a square surface of side 50
(`BIRD_SIZE` in `main`): gravity `0.5`, jump force `-7.0`,
velocity `0`. -/
def mkBird (x y : ℚ) : Bird :=
  { x := x, y := y, velocity := 0, gravity := 1/2, jumpForce := -7
    width := 50, height := 50
    rectX := ⌊x⌋, rectY := ⌊y⌋, rectW := 50, rectH := 50 }

/-- The bottom clamp of `Bird.movement` fires: the freshly integrated
`y` position reaches the bottom of the screen. -/
def Bird.bottomClampFires (b : Bird) : Prop :=
  b.y + (b.velocity + b.gravity) + b.height ≥ (SCREEN_HEIGHT : ℚ)

/-- The `y` position after integration and bottom clamping, the value
examined by the top-clamp `if` of `Bird.movement`. -/
def Bird.clampedY (b : Bird) : ℚ :=
  if b.y + (b.velocity + b.gravity) + b.height ≥ (SCREEN_HEIGHT : ℚ)
  then (SCREEN_HEIGHT : ℚ) - b.height
  else b.y + (b.velocity + b.gravity)

/-- The top clamp of `Bird.movement` fires: the `y` position examined
by the second `if` of `movement` (after any bottom clamping) is at
most `0`. -/
def Bird.topClampFires (b : Bird) : Prop :=
  b.clampedY ≤ 0

instance (b : Bird) : Decidable b.bottomClampFires := by
  unfold Bird.bottomClampFires; infer_instance

instance (b : Bird) : Decidable b.topClampFires := by
  unfold Bird.topClampFires Bird.clampedY; infer_instance

/-- `Bird.movement`: apply gravity to velocity, advance `y`, clamp at
the bottom (zeroing velocity) and at the top (not zeroing velocity),
then refresh the sprite rect from the private coordinates.  The two
assignments of the bottom-clamp branch of the source are rendered as
two conditionals over the identical condition. -/
def Bird.movement (b : Bird) : Bird :=
  { b with
    y := if b.clampedY ≤ 0 then 0 else b.clampedY
    velocity := if b.y + (b.velocity + b.gravity) + b.height ≥ (SCREEN_HEIGHT : ℚ)
                then 0 else b.velocity + b.gravity
    rectX := ⌊b.x⌋
    rectY := ⌊if b.clampedY ≤ 0 then 0 else b.clampedY⌋ }

/-- `Bird.jump`: unconditionally set the velocity to the jump
impulse. -/
def Bird.jump (b : Bird) : Bird :=
  { b with velocity := b.jumpForce }

/-! ## Obstacles (`class Pipe`, `class PipePair`) -/

/-- `random.randint lo hi` applied to a pre-drawn natural `r`:
a value in `[lo, hi]` whenever `lo ≤ hi`. -/
def randint (lo hi : Int) (r : Nat) : Int :=
  lo + ((r % (hi - lo + 1).toNat : Nat) : Int)

/-- One pipe pair.  `id` embeds Python object identity (fresh per
construction), `x` the shared horizontal position of both sprite
rects, `gapTop` the randomized height of the top pipe
(`_PipePair__top_pipe_height`), `gap` the vertical gap, `width` and
`speed` the per-pipe copies of the manager configuration. -/
structure PipePair where
  id : Nat
  x : Int
  width : Int
  gapTop : Int
  gap : Int
  speed : Int
  deriving DecidableEq

/-- `PipePair.__init__`: the top height is
`randint(MAX_PIPE_HEIGHT, SCREEN_HEIGHT - gap - MAX_PIPE_HEIGHT)`. -/
def mkPipePair (nid : Nat) (x width gap speed : Int) (r : Nat) : PipePair :=
  { id := nid, x := x, width := width, gap := gap, speed := speed
    gapTop := randint MAX_PIPE_HEIGHT (SCREEN_HEIGHT - gap - MAX_PIPE_HEIGHT) r }

/-- `Pipe.update` applied to both pipes of a pair: move left by the
pair speed. -/
def movePipe (p : PipePair) : PipePair :=
  { p with x := p.x - p.speed }

/-- Right edge of the top pipe sprite rect (`top_pipe.rect.right`). -/
def PipePair.rightEdge (p : PipePair) : Int := p.x + p.width

/-- A pipe pair that has fully left the screen on the left
(`top_pipe.rect.right < 0`), removed by `PipeManager.update`. -/
def deadPipe (p : PipePair) : Bool := decide (p.rightEdge < 0)

/-! ## Obstacle stream (`class PipeManager`) -/

/-- `PipeManager` state.  `rng` is the stream of pre-drawn naturals
fed to `randint` and `rngIdx` the number of draws consumed so far;
`nextId` is the identity counter for freshly constructed pairs. -/
structure PipeManager where
  pipes : List PipePair
  gap : Int
  pipeWidth : Int
  speed : Int
  spawnDistance : Int
  spawnIntervalFrames : Int
  framesSinceLastSpawn : Int
  nextId : Nat
  rng : Nat → Nat
  rngIdx : Nat

/-- `PipeManager.__init__`: compute the spawn interval as
`int(spawn_distance / speed)` when `speed > 0` and fall back to `60`
otherwise, then seed exactly three pairs at
`SCREEN_WIDTH + 100 + i * spawn_distance`. -/
def PipeManager.init (gap pipeWidth speed spawnDistance : Int) (rng : Nat → Nat) :
    PipeManager :=
  { pipes :=
      [ mkPipePair 0 (SCREEN_WIDTH + 100) pipeWidth gap speed (rng 0),
        mkPipePair 1 (SCREEN_WIDTH + 100 + spawnDistance) pipeWidth gap speed (rng 1),
        mkPipePair 2 (SCREEN_WIDTH + 100 + 2 * spawnDistance) pipeWidth gap speed (rng 2) ]
    gap := gap, pipeWidth := pipeWidth, speed := speed, spawnDistance := spawnDistance
    spawnIntervalFrames := if speed > 0 then spawnDistance.tdiv speed else 60
    framesSinceLastSpawn := 0
    nextId := 3, rng := rng, rngIdx := 3 }

/-- `PipeManager.update`: move every pipe, bump the frame counter,
spawn one pair at `max(last_x + spawn_distance, SCREEN_WIDTH + 100)`
when the counter has reached the interval and the list is non-empty
(resetting the counter), then drop from the front every pair whose
right edge is negative. -/
def PipeManager.update (m : PipeManager) : PipeManager :=
  let moved := m.pipes.map movePipe
  let c := m.framesSinceLastSpawn + 1
  if c ≥ m.spawnIntervalFrames ∧ moved ≠ [] then
    let lastX := ((moved.getLast?).map PipePair.x).getD 0
    let newX := max (lastX + m.spawnDistance) (SCREEN_WIDTH + 100)
    let spawned := moved ++
      [mkPipePair m.nextId newX m.pipeWidth m.gap m.speed (m.rng m.rngIdx)]
    { m with pipes := spawned.dropWhile deadPipe, framesSinceLastSpawn := 0
             nextId := m.nextId + 1, rngIdx := m.rngIdx + 1 }
  else
    { m with pipes := moved.dropWhile deadPipe, framesSinceLastSpawn := c }

/-- `PipeManager.reset`: clear the list, reset the counter and re-seed
three pairs exactly like `__init__` with the stored configuration.
The three `PipePair()` calls create fresh objects, hence fresh
identities. -/
def PipeManager.reset (m : PipeManager) : PipeManager :=
  { m with
    pipes :=
      [ mkPipePair m.nextId (SCREEN_WIDTH + 100) m.pipeWidth m.gap m.speed (m.rng m.rngIdx),
        mkPipePair (m.nextId + 1) (SCREEN_WIDTH + 100 + m.spawnDistance)
          m.pipeWidth m.gap m.speed (m.rng (m.rngIdx + 1)),
        mkPipePair (m.nextId + 2) (SCREEN_WIDTH + 100 + 2 * m.spawnDistance)
          m.pipeWidth m.gap m.speed (m.rng (m.rngIdx + 2)) ]
    framesSinceLastSpawn := 0
    nextId := m.nextId + 3, rngIdx := m.rngIdx + 3 }

/-! ## Collision detection -/

/-- A pygame rect as `(x, y, w, h)`. -/
structure PRect where
  x : Int
  y : Int
  w : Int
  h : Int
  deriving DecidableEq

/-- `pygame.Rect.colliderect`: overlap of positive area (touching
edges do not collide). -/
def collideRect (a b : PRect) : Bool :=
  decide (a.x < b.x + b.w ∧ b.x < a.x + a.w ∧ a.y < b.y + b.h ∧ b.y < a.y + a.h)

/-- Sprite rect of the top pipe of a pair. -/
def PipePair.topRect (p : PipePair) : PRect :=
  { x := p.x, y := 0, w := p.width, h := p.gapTop }

/-- Sprite rect of the bottom pipe of a pair. -/
def PipePair.bottomRect (p : PipePair) : PRect :=
  { x := p.x, y := p.gapTop + p.gap, w := p.width, h := SCREEN_HEIGHT - p.gap - p.gapTop }

/-- Sprite rect of the bird. -/
def Bird.rect (b : Bird) : PRect :=
  { x := b.rectX, y := b.rectY, w := b.rectW, h := b.rectH }

/-- `check_collisions`: the bird rect intersects the rect of some pipe
sprite of the manager (`pygame.sprite.spritecollideany`). -/
def checkCollisions (b : Bird) (m : PipeManager) : Bool :=
  m.pipes.any fun p => collideRect b.rect p.topRect || collideRect b.rect p.bottomRect

/-! ## Scoring (`ScoreManager` and the scoring loop of `main`) -/

/-- One iteration of the scoring loop of `main`: if the pair has its
top-pipe right edge strictly left of the bird rect left edge and is
not (identity-)equal to the last scored pair, increment the score and
remember the pair. -/
def scorePass (birdLeft : Int) (acc : Nat × Option Nat) (p : PipePair) : Nat × Option Nat :=
  if p.rightEdge < birdLeft ∧ acc.2 ≠ some p.id then (acc.1 + 1, some p.id) else acc

/-- The list of pipe identities that score during one pass of the
scoring loop over `pipes`, starting from last-scored reference
`last`. -/
def scoreMatches (birdLeft : Int) : List PipePair → Option Nat → List Nat
  | [], _ => []
  | p :: ps, last =>
    if p.rightEdge < birdLeft ∧ last ≠ some p.id
    then p.id :: scoreMatches birdLeft ps (some p.id)
    else scoreMatches birdLeft ps last

/-- The last-scored reference after a pass that matched the
identities `ms` (in order), starting from `last`. -/
def lastMatch (last : Option Nat) : List Nat → Option Nat
  | [] => last
  | i :: is => lastMatch (some i) is

/-! ## Game state machine (`main`) -/

/-- The five states of `GameState`. -/
inductive GState where
  | menu
  | playing
  | gameOver
  | confirmExitMenu
  | confirmExitGameOver
  deriving DecidableEq

/-- The action strings returned by the input handlers of `main.py`
(`"start"`, `"restart"`, `"exit"`, `"yes"`, `"no"`, `"none"`). -/
inductive GAction where
  | start
  | restart
  | exit
  | yes
  | no
  | none
  deriving DecidableEq

/-- Continuous key state snapshot (`pygame.key.get_pressed`),
restricted to the keys the game reads. -/
structure Keys where
  esc : Bool
  space : Bool
  r : Bool
  enter : Bool
  deriving DecidableEq

/-- Per-frame input, with the event batch abstracted to the values of
the pure event handlers that consume it: `quit` is the result of
`handle_events`, `menuAct` of `handle_main_menu_input`, `goAct` of
`handle_game_over_input_events` and `confirmAct` of
`handle_confirm_exit_input`. -/
structure FrameInput where
  quit : Bool
  menuAct : GAction
  goAct : GAction
  confirmAct : GAction
  keys : Keys

/-- `handle_game_over_input`: continuous key fallback in the game-over
menu. -/
def handleGameOverKeys (k : Keys) : GAction :=
  if k.r then .restart
  else if k.enter || k.space then .restart
  else if k.esc then .exit
  else .none

/-- The effective game-over action: event-driven handlers first, key
state fallback when they return `"none"`. -/
def gameOverAction (i : FrameInput) : GAction :=
  if i.goAct = GAction.none then handleGameOverKeys i.keys else i.goAct

/-- Whole-process mutable state of `main`: current `GameState`, the
bird, the pipe manager, the `ScoreManager` fields and the
`last_pipe_passed` reference (embedded by pipe identity). -/
structure MainState where
  phase : GState
  bird : Bird
  pm : PipeManager
  score : Nat
  highScore : Nat
  lastPipePassed : Option Nat

/-- `reset_game(bird, pipe_manager, score_manager)`.  The assignments
`bird.__x = 70`, `bird.__y = 90`, `bird.__velocity = 0.0` occur in a
module-level function, so Python name mangling does NOT map them to
the private attributes `_Bird__x`, `_Bird__y`, `_Bird__velocity` read
and written by the `Bird` methods: they create fresh, never-read
attributes.  Only the sprite rect assignments and the pipe-manager
and score resets take effect. -/
def reset_game (s : MainState) : MainState :=
  { s with bird := { s.bird with rectX := 70, rectY := 90 }
           pm := s.pm.reset
           score := 0 }

/-- Result of one pass of the main loop body: continue running, leave
the loop normally (process exit status 0), or terminate via
`sys.exit` with the given status. -/
inductive StepResult where
  | running (s : MainState)
  | finished (s : MainState)
  | exited (code : Nat) (s : MainState)

/-- The main-loop state carried by a step result (the process state at
the moment the frame ended or the process exited). -/
def StepResult.st : StepResult → MainState
  | .running s => s
  | .finished s => s
  | .exited _ s => s

/-- Wrap a frame result according to the `running` flag set by
`handle_events` (a quit event ends the loop after the frame). -/
def contRun (quit : Bool) (s : MainState) : StepResult :=
  if quit then .finished s else .running s

/-- The `MENU` branch of the main loop. -/
def stepMenu (s : MainState) (i : FrameInput) : MainState :=
  if i.menuAct = GAction.start then
    { reset_game s with phase := .playing, lastPipePassed := Option.none }
  else if i.menuAct = GAction.exit then { s with phase := .confirmExitMenu }
  else s

/-- The `PLAYING` branch of the main loop for a frame on which the
escape key is not held: bird movement, pipe update, optional jump,
the scoring loop, then collision check committing the high score and
switching to `GAME_OVER`. -/
def stepPlayingCore (s : MainState) (i : FrameInput) : MainState :=
  let b := s.bird.movement
  let pm := s.pm.update
  let b2 := if i.keys.space then b.jump else b
  let sl := pm.pipes.foldl (scorePass b2.rectX) (s.score, s.lastPipePassed)
  if checkCollisions b2 pm then
    { s with bird := b2, pm := pm, score := sl.1, lastPipePassed := sl.2
             highScore := max s.highScore sl.1, phase := .gameOver }
  else
    { s with bird := b2, pm := pm, score := sl.1, lastPipePassed := sl.2 }

/-- The `GAME_OVER` branch of the main loop. -/
def stepGameOver (s : MainState) (i : FrameInput) : MainState :=
  let act := gameOverAction i
  if act = GAction.restart then
    { reset_game s with phase := .playing, lastPipePassed := Option.none }
  else if act = GAction.exit then { s with phase := .confirmExitGameOver }
  else s

/-- One pass of the main loop body of `main`.  In the `PLAYING` state,
bird movement and the pipe update run first; `handle_keys_pressed_events`
then calls `sys.exit(1)` when escape is held, before scoring and
collision detection.  In the confirm states a `"yes"` sets `running`
to `False`, ending the loop normally. -/
def mainStep (s : MainState) (i : FrameInput) : StepResult :=
  match s.phase with
  | .menu => contRun i.quit (stepMenu s i)
  | .confirmExitMenu =>
    if i.confirmAct = GAction.yes then .finished s
    else if i.confirmAct = GAction.no then contRun i.quit { s with phase := .menu }
    else contRun i.quit s
  | .playing =>
    if i.keys.esc then
      .exited 1 { s with bird := s.bird.movement, pm := s.pm.update }
    else contRun i.quit (stepPlayingCore s i)
  | .gameOver => contRun i.quit (stepGameOver s i)
  | .confirmExitGameOver =>
    if i.confirmAct = GAction.yes then .finished s
    else if i.confirmAct = GAction.no then contRun i.quit { s with phase := .gameOver }
    else contRun i.quit s

/-- The run of the main loop from state `s0` under the input stream
`ins`: `runMain s0 ins t` is the result after `t` frames (a result
other than `running` is absorbing). -/
def runMain (s0 : MainState) (ins : Nat → FrameInput) : Nat → StepResult
  | 0 => .running s0
  | n + 1 =>
    match runMain s0 ins n with
    | .running s => mainStep s (ins n)
    | r => r

/-! ## Round model

The scoring claims quantify over sequences of `PLAYING`-state frames
of one round.  During such frames the state touched by the scoring
loop is exactly the pipe manager, the score and the
`last_pipe_passed` reference: the bird never moves horizontally, so
`bird.rect.left` is the constant `70` (its spawn abscissa). -/

/-- The round-relevant fragment of the state mutated by a
`PLAYING`-state frame. -/
structure RoundState where
  pm : PipeManager
  score : Nat
  lastPipePassed : Option Nat

/-- The left edge of the bird sprite rect during play
(`bird.rect.left`; the abscissa is 70 from construction on and is
never modified). -/
def BIRD_LEFT : Int := 70

/-- One `PLAYING` frame restricted to the round fragment: pipe update
followed by the scoring loop. -/
def roundTick (r : RoundState) : RoundState :=
  let pm := r.pm.update
  let sl := pm.pipes.foldl (scorePass BIRD_LEFT) (r.score, r.lastPipePassed)
  { pm := pm, score := sl.1, lastPipePassed := sl.2 }

/-- The round context produced by `reset_game` plus
`last_pipe_passed = None`, as executed on both the start and the
restart transition. -/
def roundStart (m : PipeManager) : RoundState :=
  { pm := m.reset, score := 0, lastPipePassed := Option.none }

/-- The game configuration of `main`: `PipeManager(gap=200,
pipe_width=80, speed=4, spawn_distance=300)`, whose spawn interval is
`int(300 / 4) = 75`. -/
def gameCfg (m : PipeManager) : Prop :=
  m.gap = 200 ∧ m.pipeWidth = 80 ∧ m.speed = 4 ∧ m.spawnDistance = 300 ∧
    m.spawnIntervalFrames = 75

/-- An arithmetic chain of pipe pairs with the game configuration:
identities and gap tops listed in `l`, abscissas `a`, `a + 300`,
`a + 600`, ... -/
def buildPipes (a : Int) : List (Nat × Int) → List PipePair
  | [] => []
  | (i, g) :: rest =>
    { id := i, x := a, width := 80, gapTop := g, gap := 200, speed := 4 } ::
      buildPipes (a + 300) rest

/-- Shape invariant of the pipe list under the game configuration:
the pipes form a 300-spaced chain starting at `a ≥ -80` with strictly
increasing identities below the identity counter, the chain is
non-empty, its last abscissa is tied to the spawn frame counter by
`last = 1500 - 4 c`, and `0 ≤ c ≤ 74`. -/
def pipesShape (m : PipeManager) : Prop :=
  ∃ a l, m.pipes = buildPipes a l ∧ l ≠ [] ∧
    l.Pairwise (fun p q => p.1 < q.1) ∧
    (∀ p ∈ l, p.1 < m.nextId) ∧
    -80 ≤ a ∧
    a + 300 * ((l.length : Int) - 1) = 1500 - 4 * m.framesSinceLastSpawn ∧
    0 ≤ m.framesSinceLastSpawn ∧ m.framesSinceLastSpawn ≤ 74

/-- Reachability invariant of the pipe manager during play. -/
def pmInv (m : PipeManager) : Prop :=
  gameCfg m ∧ pipesShape m

/-- Reachability invariant of a round state: the manager invariant,
plus the meaning of the `last_pipe_passed` reference: the head pipe
has been passed if and only if it is the last-scored pipe, and the
reference never points past the head identity. -/
def roundInv (r : RoundState) : Prop :=
  pmInv r.pm ∧
  (∀ p, r.pm.pipes.head? = some p →
    (p.rightEdge < BIRD_LEFT ↔ r.lastPipePassed = some p.id)) ∧
  (∀ i, r.lastPipePassed = some i → ∀ p, r.pm.pipes.head? = some p → i ≤ p.id)

/-- Obstacle of identity `o` is present in the stream with its
trailing edge strictly left of the bird leading edge. -/
def passedIn (m : PipeManager) (o : Nat) : Prop :=
  ∃ p ∈ m.pipes, p.id = o ∧ p.rightEdge < BIRD_LEFT

/-- The identities scored during the frame taking `r` to
`roundTick r`. -/
def tickMatches (r : RoundState) : List Nat :=
  scoreMatches BIRD_LEFT (r.pm.update).pipes r.lastPipePassed

/-- The identities of the pipes currently in the stream. -/
def idsOf (m : PipeManager) : List Nat :=
  m.pipes.map PipePair.id

/-- The round state after `t` `PLAYING` frames of the round started
by a reset of the manager `m`. -/
def roundRun (m : PipeManager) (t : Nat) : RoundState :=
  roundTick^[t] (roundStart m)

/-! ## Theorems -/

/-- C3: after every call to `Bird.movement`, `0 ≤ y ≤ SCREEN_HEIGHT -
height`; when the bottom clamp fires (`y + height ≥ SCREEN_HEIGHT`)
the velocity is set to `0`, and when the top clamp fires (`y ≤ 0`)
the position is set to `0` while the velocity keeps the value
`velocity + gravity` computed that frame (it is not zeroed). -/
theorem bird_clamp_invariant (b : Bird)
    (hh0 : 0 ≤ b.height) (hh1 : b.height ≤ 600) :
    (0 ≤ b.movement.y ∧ b.movement.y ≤ (SCREEN_HEIGHT : ℚ) - b.height) ∧
    (b.bottomClampFires → b.movement.velocity = 0 ∧
      (¬ b.topClampFires → b.movement.y = (SCREEN_HEIGHT : ℚ) - b.height)) ∧
    (b.topClampFires → b.movement.y = 0) ∧
    (b.topClampFires ∧ ¬ b.bottomClampFires →
      b.movement.y = 0 ∧ b.movement.velocity = b.velocity + b.gravity) := by
  have hS : (SCREEN_HEIGHT : ℚ) = 600 := by norm_num [SCREEN_HEIGHT]
  have hy : b.movement.y = if b.clampedY ≤ 0 then 0 else b.clampedY := rfl
  have hv : b.movement.velocity =
      if b.y + (b.velocity + b.gravity) + b.height ≥ (SCREEN_HEIGHT : ℚ)
      then 0 else b.velocity + b.gravity := rfl
  by_cases hbot : b.bottomClampFires
  · have hcy : b.clampedY = (SCREEN_HEIGHT : ℚ) - b.height := if_pos hbot
    have hvv : b.movement.velocity = 0 := by
      rw [hv, if_pos (show b.y + (b.velocity + b.gravity) + b.height ≥ (SCREEN_HEIGHT : ℚ) from hbot)]
    by_cases htop : b.topClampFires
    · have hyy : b.movement.y = 0 := by
        rw [hy, if_pos (show b.clampedY ≤ 0 from htop)]
      have hge : (SCREEN_HEIGHT : ℚ) - b.height ≤ 0 := by
        have := htop; rw [Bird.topClampFires, hcy] at this; exact this
      refine ⟨⟨by rw [hyy], by rw [hyy, hS]; linarith [hh1]⟩, ?_, ?_, ?_⟩
      · exact fun _ => ⟨hvv, fun hc => absurd htop hc⟩
      · exact fun _ => hyy
      · exact fun hc => absurd hbot hc.2
    · have hyy : b.movement.y = (SCREEN_HEIGHT : ℚ) - b.height := by
        rw [hy, if_neg (show ¬ b.clampedY ≤ 0 from htop), hcy]
      have hpos : ¬ b.clampedY ≤ 0 := htop
      rw [hcy] at hpos
      refine ⟨⟨by rw [hyy]; linarith [not_le.mp hpos], by rw [hyy]⟩, ?_, ?_, ?_⟩
      · exact fun _ => ⟨hvv, fun _ => hyy⟩
      · exact fun hc => absurd hc htop
      · exact fun hc => absurd hc.1 htop
  · have hlt : b.y + (b.velocity + b.gravity) + b.height < (SCREEN_HEIGHT : ℚ) := by
      rw [Bird.bottomClampFires] at hbot; exact not_le.mp hbot
    have hcy : b.clampedY = b.y + (b.velocity + b.gravity) := by
      rw [Bird.clampedY, if_neg (show ¬ b.y + (b.velocity + b.gravity) + b.height ≥ (SCREEN_HEIGHT : ℚ) from not_le.mpr hlt)]
    have hvv : b.movement.velocity = b.velocity + b.gravity := by
      rw [hv, if_neg (show ¬ b.y + (b.velocity + b.gravity) + b.height ≥ (SCREEN_HEIGHT : ℚ) from not_le.mpr hlt)]
    by_cases htop : b.topClampFires
    · have hyy : b.movement.y = 0 := by
        rw [hy, if_pos (show b.clampedY ≤ 0 from htop)]
      refine ⟨⟨by rw [hyy], by rw [hyy, hS]; linarith [hh1]⟩, ?_, ?_, ?_⟩
      · exact fun hc => absurd hc hbot
      · exact fun _ => hyy
      · exact fun _ => ⟨hyy, hvv⟩
    · have hple : ¬ b.clampedY ≤ 0 := htop
      have hyy : b.movement.y = b.y + (b.velocity + b.gravity) := by
        rw [hy, if_neg hple, hcy]
      rw [hcy] at hple
      refine ⟨⟨by rw [hyy]; linarith [not_le.mp hple], by rw [hyy, hS]; linarith [hlt, hS]⟩,
        ?_, ?_, ?_⟩
      · exact fun hc => absurd hc hbot
      · exact fun hc => absurd hc htop
      · exact fun hc => absurd hc.1 htop

/-- Witness for `bird_clamp_invariant` at the spawn bird. -/
theorem bird_clamp_invariant_witness :
    (0 ≤ (mkBird 70 90).movement.y ∧
      (mkBird 70 90).movement.y ≤ (SCREEN_HEIGHT : ℚ) - (mkBird 70 90).height) ∧
    ((mkBird 70 90).bottomClampFires → (mkBird 70 90).movement.velocity = 0 ∧
      (¬ (mkBird 70 90).topClampFires →
        (mkBird 70 90).movement.y = (SCREEN_HEIGHT : ℚ) - (mkBird 70 90).height)) ∧
    ((mkBird 70 90).topClampFires → (mkBird 70 90).movement.y = 0) ∧
    ((mkBird 70 90).topClampFires ∧ ¬ (mkBird 70 90).bottomClampFires →
      (mkBird 70 90).movement.y = 0 ∧
      (mkBird 70 90).movement.velocity = (mkBird 70 90).velocity + (mkBird 70 90).gravity) :=
  bird_clamp_invariant (mkBird 70 90) (by norm_num [mkBird]) (by norm_num [mkBird])

/-- C9: `jump()` followed by one `movement()` yields
`velocity = jumpForce + gravity` whenever the bottom clamp (the only
clamp that touches the velocity) does not fire on that step; with the
game constants `jumpForce = -7`, `gravity = 0.5` this is `-6.5`. -/
theorem jump_then_integrate_velocity (b : Bird)
    (h : ¬ (b.jump).bottomClampFires) :
    b.jump.movement.velocity = b.jumpForce + b.gravity ∧
    (b.jumpForce = -7 → b.gravity = 1/2 → b.jump.movement.velocity = -(13/2)) := by
  have hv : b.jump.movement.velocity = b.jump.velocity + b.jump.gravity := by
    rw [Bird.bottomClampFires] at h
    show (if b.jump.y + (b.jump.velocity + b.jump.gravity) + b.jump.height ≥ (SCREEN_HEIGHT : ℚ)
          then 0 else b.jump.velocity + b.jump.gravity) = b.jump.velocity + b.jump.gravity
    rw [if_neg h]
  have hjv : b.jump.velocity = b.jumpForce := rfl
  have hjg : b.jump.gravity = b.gravity := rfl
  rw [hv, hjv, hjg]
  exact ⟨rfl, fun hj hg => by rw [hj, hg]; norm_num⟩

/-- Witness for `jump_then_integrate_velocity` at the spawn bird. -/
theorem jump_then_integrate_velocity_witness :
    (mkBird 70 90).jump.movement.velocity =
        (mkBird 70 90).jumpForce + (mkBird 70 90).gravity ∧
    ((mkBird 70 90).jumpForce = -7 → (mkBird 70 90).gravity = 1/2 →
      (mkBird 70 90).jump.movement.velocity = -(13/2)) :=
  jump_then_integrate_velocity (mkBird 70 90)
    (by norm_num [Bird.bottomClampFires, Bird.jump, mkBird, SCREEN_HEIGHT])

/-- C4 counterexample: constructing the pipe manager with the invalid
configuration `speed = 0` does not fail: it silently substitutes the
default spawn cadence of 60 frames and seeds the usual three pipe
pairs.  `PipeManager.init` is a total function faithfully embedding
`PipeManager.__init__`, which performs no validation. -/
theorem pm_init_speed_zero_silently_defaults :
    (PipeManager.init 200 80 0 300 (fun _ => 0)).spawnIntervalFrames = 60 ∧
    (PipeManager.init 200 80 0 300 (fun _ => 0)).pipes.length = 3 := by
  constructor <;> rfl

/-- C4 amended: construction with non-positive speed succeeds and
silently uses the fallback cadence of 60 frames (and non-positive
spawn distances are likewise accepted without error); there is no
fail-fast configuration check. -/
theorem pm_init_nonpositive_speed_default_cadence
    (g w sp d : Int) (rng : Nat → Nat) (h : sp ≤ 0) :
    (PipeManager.init g w sp d rng).spawnIntervalFrames = 60 ∧
    (PipeManager.init g w sp d rng).pipes.length = 3 := by
  refine ⟨?_, rfl⟩
  simp only [PipeManager.init]
  rw [if_neg (by omega)]

/-- Witness for `pm_init_nonpositive_speed_default_cadence` at
`speed = -4`. -/
theorem pm_init_nonpositive_speed_default_cadence_witness :
    (PipeManager.init 200 80 (-4) 300 (fun _ => 0)).spawnIntervalFrames = 60 ∧
    (PipeManager.init 200 80 (-4) 300 (fun _ => 0)).pipes.length = 3 :=
  pm_init_nonpositive_speed_default_cadence 200 80 (-4) 300 (fun _ => 0) (by norm_num)

/-! ### Gap margin invariant (C7) -/

/-- `randint lo hi r` lies in `[lo, hi]` whenever `lo ≤ hi`. -/
theorem randint_bounds (lo hi : Int) (r : Nat) (h : lo ≤ hi) :
    lo ≤ randint lo hi r ∧ randint lo hi r ≤ hi := by
  unfold randint
  have htn : ((hi - lo + 1).toNat : Int) = hi - lo + 1 := Int.toNat_of_nonneg (by omega)
  have hmod : (r % (hi - lo + 1).toNat : Nat) < (hi - lo + 1).toNat :=
    Nat.mod_lt _ (by omega)
  have hcast : ((r % (hi - lo + 1).toNat : Nat) : Int) < hi - lo + 1 := by
    rw [← htn]; exact_mod_cast hmod
  have hnn : (0 : Int) ≤ ((r % (hi - lo + 1).toNat : Nat) : Int) := Int.natCast_nonneg _
  omega

/-- At creation, a pipe pair with `gap ≤ 400` has its gap inside the
vertical margins. -/
theorem mkPipePair_gapTop_bounds (nid : Nat) (x w g sp : Int) (r : Nat) (hg : g ≤ 400) :
    MAX_PIPE_HEIGHT ≤ (mkPipePair nid x w g sp r).gapTop ∧
    (mkPipePair nid x w g sp r).gapTop + g ≤ SCREEN_HEIGHT - MAX_PIPE_HEIGHT := by
  have hb := randint_bounds MAX_PIPE_HEIGHT (SCREEN_HEIGHT - g - MAX_PIPE_HEIGHT) r
    (by simp only [MAX_PIPE_HEIGHT, SCREEN_HEIGHT]; omega)
  have hgt : (mkPipePair nid x w g sp r).gapTop =
      randint MAX_PIPE_HEIGHT (SCREEN_HEIGHT - g - MAX_PIPE_HEIGHT) r := rfl
  rw [hgt]
  simp only [MAX_PIPE_HEIGHT, SCREEN_HEIGHT] at *
  omega

/-- Elements of `dropWhile` come from the original list. -/
theorem mem_of_mem_dropWhile {α : Type} {p : α → Bool} {l : List α} {x : α}
    (hx : x ∈ l.dropWhile p) : x ∈ l := by
  induction l with
  | nil => simpa using hx
  | cons a t ih =>
    rw [List.dropWhile_cons] at hx
    by_cases hpa : p a = true
    · rw [if_pos hpa] at hx
      exact List.mem_cons_of_mem _ (ih hx)
    · rw [if_neg hpa] at hx
      exact hx

/-- `PipeManager.update` does not change the configured gap. -/
theorem update_gap (m : PipeManager) : m.update.gap = m.gap := by
  simp only [PipeManager.update]
  split <;> rfl

/-- Every pipe present after an update is a moved old pipe or the
freshly spawned pair. -/
theorem mem_update_pipes (m : PipeManager) (p : PipePair) (hp : p ∈ m.update.pipes) :
    (∃ q ∈ m.pipes, p = movePipe q) ∨
    (∃ xnew : Int, p = mkPipePair m.nextId xnew m.pipeWidth m.gap m.speed (m.rng m.rngIdx)) := by
  unfold PipeManager.update at hp
  by_cases hc : m.framesSinceLastSpawn + 1 ≥ m.spawnIntervalFrames ∧ m.pipes.map movePipe ≠ []
  · rw [if_pos hc] at hp
    simp only at hp
    have hp2 := mem_of_mem_dropWhile hp
    rcases List.mem_append.mp hp2 with hmem | hnew
    · rcases List.mem_map.mp hmem with ⟨q, hq, hqe⟩
      exact Or.inl ⟨q, hq, hqe.symm⟩
    · rcases List.mem_singleton.mp hnew with hne
      exact Or.inr ⟨_, hne⟩
  · rw [if_neg hc] at hp
    simp only at hp
    have hp2 := mem_of_mem_dropWhile hp
    rcases List.mem_map.mp hp2 with ⟨q, hq, hqe⟩
    exact Or.inl ⟨q, hq, hqe.symm⟩

/-- The gap-margin property of every pipe is preserved by one stream
update. -/
theorem update_preserves_gap_margins (m : PipeManager) (hg : m.gap ≤ 400)
    (h : ∀ p ∈ m.pipes, MAX_PIPE_HEIGHT ≤ p.gapTop ∧
      p.gapTop + p.gap ≤ SCREEN_HEIGHT - MAX_PIPE_HEIGHT) :
    ∀ p ∈ m.update.pipes, MAX_PIPE_HEIGHT ≤ p.gapTop ∧
      p.gapTop + p.gap ≤ SCREEN_HEIGHT - MAX_PIPE_HEIGHT := by
  intro p hp
  rcases mem_update_pipes m p hp with ⟨q, hq, hpe⟩ | ⟨xnew, hpe⟩
  · have := h q hq
    rw [hpe]
    exact this
  · rw [hpe]
    have hb := mkPipePair_gapTop_bounds m.nextId xnew m.pipeWidth m.gap m.speed
      (m.rng m.rngIdx) hg
    exact ⟨hb.1, by
      have : (mkPipePair m.nextId xnew m.pipeWidth m.gap m.speed (m.rng m.rngIdx)).gap =
        m.gap := rfl
      rw [this]; exact hb.2⟩

/-- C7: for every obstacle at the moment it is created (initial
seeding, reset, or mid-game spawn, hence for every obstacle ever held
by the stream during a run), the gap respects the vertical margins:
`gapTop ≥ MAX_PIPE_HEIGHT` and
`gapTop + gap ≤ SCREEN_HEIGHT - MAX_PIPE_HEIGHT` (for any gap that
makes the `randint` range non-empty, in particular the game gap of
200). -/
theorem gap_never_touches_margins (g w sp d : Int) (rng : Nat → Nat) (hg : g ≤ 400) :
    (∀ t : Nat, ∀ p ∈ (PipeManager.update^[t] (PipeManager.init g w sp d rng)).pipes,
      MAX_PIPE_HEIGHT ≤ p.gapTop ∧ p.gapTop + p.gap ≤ SCREEN_HEIGHT - MAX_PIPE_HEIGHT) ∧
    (∀ m : PipeManager, m.gap = g →
      ∀ t : Nat, ∀ p ∈ (PipeManager.update^[t] m.reset).pipes,
        MAX_PIPE_HEIGHT ≤ p.gapTop ∧ p.gapTop + p.gap ≤ SCREEN_HEIGHT - MAX_PIPE_HEIGHT) := by
  have hstep : ∀ mm : PipeManager, mm.gap = g →
      (∀ p ∈ mm.pipes, MAX_PIPE_HEIGHT ≤ p.gapTop ∧
        p.gapTop + p.gap ≤ SCREEN_HEIGHT - MAX_PIPE_HEIGHT) →
      ∀ t : Nat, ∀ p ∈ (PipeManager.update^[t] mm).pipes,
        MAX_PIPE_HEIGHT ≤ p.gapTop ∧ p.gapTop + p.gap ≤ SCREEN_HEIGHT - MAX_PIPE_HEIGHT := by
    intro mm hmg hbase t
    induction t generalizing mm with
    | zero => simpa using hbase
    | succ n ih =>
      rw [Function.iterate_succ_apply]
      exact ih mm.update (by rw [update_gap, hmg])
        (update_preserves_gap_margins mm (by rw [hmg]; exact hg) hbase)
  have hball : ∀ (w2 sp2 : Int) (nid : Nat) (x : Int) (r : Nat),
      MAX_PIPE_HEIGHT ≤ (mkPipePair nid x w2 g sp2 r).gapTop ∧
      (mkPipePair nid x w2 g sp2 r).gapTop + (mkPipePair nid x w2 g sp2 r).gap ≤
        SCREEN_HEIGHT - MAX_PIPE_HEIGHT := by
    intro w2 sp2 nid x r
    have hb := mkPipePair_gapTop_bounds nid x w2 g sp2 r hg
    exact ⟨hb.1, hb.2⟩
  constructor
  · refine hstep _ rfl ?_
    intro p hp
    simp only [PipeManager.init, List.mem_cons, List.not_mem_nil, or_false] at hp
    rcases hp with hpe | hpe | hpe <;> (rw [hpe]; exact hball _ _ _ _ _)
  · intro m hmg
    refine hstep _ hmg ?_
    intro p hp
    simp only [PipeManager.reset, List.mem_cons, List.not_mem_nil, or_false] at hp
    subst hmg
    rcases hp with hpe | hpe | hpe <;> (rw [hpe]; exact hball _ _ _ _ _)

/-! ### Spawn cadence (C6) -/

/-- `dropWhile` is the identity when no element satisfies the
predicate. -/
theorem dropWhile_eq_self_of_not {α : Type} {p : α → Bool} {l : List α}
    (h : ∀ x ∈ l, p x = false) : l.dropWhile p = l := by
  cases l with
  | nil => rfl
  | cons a t =>
    rw [List.dropWhile_cons, h a (List.mem_cons_self a t)]
    simp

/-- Unfolding of `PipeManager.update` in the spawning case. -/
theorem update_spawn_eq (m : PipeManager) (hne : m.pipes ≠ [])
    (hc : m.framesSinceLastSpawn + 1 ≥ m.spawnIntervalFrames) :
    m.update.framesSinceLastSpawn = 0 ∧
    m.update.pipes = (m.pipes.map movePipe ++
      [mkPipePair m.nextId
        (max ((((m.pipes.map movePipe).getLast?).map PipePair.x).getD 0 + m.spawnDistance)
          (SCREEN_WIDTH + 100)) m.pipeWidth m.gap m.speed (m.rng m.rngIdx)]).dropWhile
        deadPipe ∧
    m.update.nextId = m.nextId + 1 ∧ m.update.rngIdx = m.rngIdx + 1 := by
  have hmne : m.pipes.map movePipe ≠ [] := by
    intro hfalse
    exact hne (List.map_eq_nil.mp hfalse)
  simp only [PipeManager.update]
  rw [if_pos ⟨hc, hmne⟩]
  exact ⟨rfl, rfl, rfl, rfl⟩

/-- Unfolding of `PipeManager.update` in the non-spawning case. -/
theorem update_no_spawn_eq (m : PipeManager)
    (hc : ¬ (m.framesSinceLastSpawn + 1 ≥ m.spawnIntervalFrames ∧ m.pipes.map movePipe ≠ [])) :
    m.update.framesSinceLastSpawn = m.framesSinceLastSpawn + 1 ∧
    m.update.pipes = (m.pipes.map movePipe).dropWhile deadPipe ∧
    m.update.nextId = m.nextId ∧ m.update.rngIdx = m.rngIdx := by
  simp only [PipeManager.update]
  rw [if_neg hc]
  exact ⟨rfl, rfl, rfl, rfl⟩

set_option maxRecDepth 10000 in
/-- C6: on each stream tick the frame counter is incremented; once it
reaches `spawnIntervalFrames` (computed at construction as
`int(spawnDistance / speed)`, or the fallback 60 when `speed ≤ 0`),
exactly one new pipe pair is appended at
`max(last_x + spawnDistance, SCREEN_WIDTH + 100)` and the counter is
reset to 0; otherwise no pipe is appended.  In the scenario
`gap=200, width=80, speed=4, spawnDistance=300`, after 74 ticks the
stream still holds the initial 3 pairs and after 75 ticks exactly one
pair has been appended beyond them. -/
theorem spawn_cadence (m : PipeManager)
    (hne : m.pipes ≠ []) (hw : 0 ≤ m.pipeWidth)
    (hlive : ∀ p ∈ m.pipes, 0 ≤ (movePipe p).rightEdge) :
    (m.framesSinceLastSpawn + 1 ≥ m.spawnIntervalFrames →
      m.update.framesSinceLastSpawn = 0 ∧
      m.update.pipes = m.pipes.map movePipe ++
        [mkPipePair m.nextId
          (max ((((m.pipes.map movePipe).getLast?).map PipePair.x).getD 0 + m.spawnDistance)
            (SCREEN_WIDTH + 100)) m.pipeWidth m.gap m.speed (m.rng m.rngIdx)] ∧
      m.update.pipes.length = m.pipes.length + 1) ∧
    (m.framesSinceLastSpawn + 1 < m.spawnIntervalFrames →
      m.update.framesSinceLastSpawn = m.framesSinceLastSpawn + 1 ∧
      m.update.pipes = m.pipes.map movePipe ∧
      m.update.pipes.length = m.pipes.length) ∧
    ((PipeManager.update^[74] (PipeManager.init 200 80 4 300 (fun _ => 0))).pipes.length = 3 ∧
      (PipeManager.update^[75] (PipeManager.init 200 80 4 300 (fun _ => 0))).pipes.length = 4) := by
  have hmovedLive : ∀ q ∈ m.pipes.map movePipe, deadPipe q = false := by
    intro q hq
    rcases List.mem_map.mp hq with ⟨p, hp, hpe⟩
    have := hlive p hp
    rw [← hpe]
    exact decide_eq_false (not_lt.mpr this)
  refine ⟨?_, ?_, ?_⟩
  · intro hc
    obtain ⟨h0, hpipes, hnid, hrid⟩ := update_spawn_eq m hne hc
    have hnotdead : ∀ q ∈ m.pipes.map movePipe ++
        [mkPipePair m.nextId
          (max ((((m.pipes.map movePipe).getLast?).map PipePair.x).getD 0 + m.spawnDistance)
            (SCREEN_WIDTH + 100)) m.pipeWidth m.gap m.speed (m.rng m.rngIdx)],
        deadPipe q = false := by
      intro q hq
      rcases List.mem_append.mp hq with hq1 | hq2
      · exact hmovedLive q hq1
      · rw [List.mem_singleton.mp hq2]
        have hxe : (mkPipePair m.nextId
            (max ((((m.pipes.map movePipe).getLast?).map PipePair.x).getD 0 + m.spawnDistance)
              (SCREEN_WIDTH + 100)) m.pipeWidth m.gap m.speed (m.rng m.rngIdx)).rightEdge =
            max ((((m.pipes.map movePipe).getLast?).map PipePair.x).getD 0 + m.spawnDistance)
              (SCREEN_WIDTH + 100) + m.pipeWidth := rfl

        refine decide_eq_false (not_lt.mpr ?_)
        rw [hxe]
        have hmax : (SCREEN_WIDTH + 100 : Int) ≤
            max ((((m.pipes.map movePipe).getLast?).map PipePair.x).getD 0 + m.spawnDistance)
              (SCREEN_WIDTH + 100) := le_max_right _ _
        simp only [SCREEN_WIDTH] at hmax ⊢
        omega
    rw [dropWhile_eq_self_of_not hnotdead] at hpipes
    refine ⟨h0, hpipes, ?_⟩
    rw [hpipes, List.length_append, List.length_map, List.length_singleton]
  · intro hc
    obtain ⟨h0, hpipes, hnid, hrid⟩ := update_no_spawn_eq m (by
      intro hcontra
      exact absurd hcontra.1 (not_le.mpr hc))
    rw [dropWhile_eq_self_of_not hmovedLive] at hpipes
    refine ⟨h0, hpipes, ?_⟩
    rw [hpipes, List.length_map]
  · exact ⟨by decide, by decide⟩

/-- Witness for `spawn_cadence` at the freshly constructed game
manager. -/
theorem spawn_cadence_witness :
    (let m := PipeManager.init 200 80 4 300 (fun _ => 0)
     (m.framesSinceLastSpawn + 1 ≥ m.spawnIntervalFrames →
      m.update.framesSinceLastSpawn = 0 ∧
      m.update.pipes = m.pipes.map movePipe ++
        [mkPipePair m.nextId
          (max ((((m.pipes.map movePipe).getLast?).map PipePair.x).getD 0 + m.spawnDistance)
            (SCREEN_WIDTH + 100)) m.pipeWidth m.gap m.speed (m.rng m.rngIdx)] ∧
      m.update.pipes.length = m.pipes.length + 1) ∧
    (m.framesSinceLastSpawn + 1 < m.spawnIntervalFrames →
      m.update.framesSinceLastSpawn = m.framesSinceLastSpawn + 1 ∧
      m.update.pipes = m.pipes.map movePipe ∧
      m.update.pipes.length = m.pipes.length) ∧
    ((PipeManager.update^[74] (PipeManager.init 200 80 4 300 (fun _ => 0))).pipes.length = 3 ∧
      (PipeManager.update^[75] (PipeManager.init 200 80 4 300 (fun _ => 0))).pipes.length = 4)) :=
  spawn_cadence (PipeManager.init 200 80 4 300 (fun _ => 0))
    (by decide) (by decide) (by decide)

/-! ### Structure of the pipe chain (towards C1 and C8) -/

/-- Moving a pipe chain shifts its base abscissa by the shared speed
4. -/
theorem bp_map_move (l : List (Nat × Int)) : ∀ a : Int,
    (buildPipes a l).map movePipe = buildPipes (a - 4) l := by
  induction l with
  | nil => intro a; rfl
  | cons hd tl ih =>
    intro a
    obtain ⟨i, g⟩ := hd
    have h300 : a + 300 - 4 = a - 4 + 300 := by ring
    simp only [buildPipes, List.map_cons, ih (a + 300), movePipe, h300]

/-- Length of a pipe chain. -/
theorem bp_length (l : List (Nat × Int)) : ∀ a : Int,
    (buildPipes a l).length = l.length := by
  induction l with
  | nil => intro a; rfl
  | cons hd tl ih =>
    intro a
    obtain ⟨i, g⟩ := hd
    simp only [buildPipes, List.length_cons, ih (a + 300)]

/-- A chain over a non-empty index list is non-empty. -/
theorem bp_ne_nil {l : List (Nat × Int)} (hl : l ≠ []) (a : Int) :
    buildPipes a l ≠ [] := by
  obtain ⟨hd, tl, rfl⟩ := List.exists_cons_of_ne_nil hl
  obtain ⟨i, g⟩ := hd
  simp [buildPipes]

/-- The last abscissa of a non-empty chain, as read by the spawn logic
of `PipeManager.update`. -/
theorem bp_getLast_x (l : List (Nat × Int)) : ∀ (a : Int) (i : Nat) (g : Int),
    (((buildPipes a ((i, g) :: l)).getLast?).map PipePair.x).getD 0 =
      a + 300 * (l.length : Int) := by
  induction l with
  | nil =>
    intro a i g
    simp [buildPipes]
  | cons hd tl ih =>
    intro a i g
    obtain ⟨j, h2⟩ := hd
    have hcc : (buildPipes a ((i, g) :: (j, h2) :: tl)).getLast? =
        (buildPipes (a + 300) ((j, h2) :: tl)).getLast? := by
      simp only [buildPipes]
      rw [List.getLast?_cons_cons]
    rw [hcc, ih (a + 300) j h2]
    simp only [List.length_cons]
    push_cast
    ring

/-- Appending one element at the end of a chain. -/
theorem bp_append (l : List (Nat × Int)) : ∀ (a : Int) (i : Nat) (g : Int),
    buildPipes a l ++
      [{ id := i, x := a + 300 * (l.length : Int), width := 80, gapTop := g,
         gap := 200, speed := 4 }] =
      buildPipes a (l ++ [(i, g)]) := by
  induction l with
  | nil =>
    intro a i g
    simp [buildPipes]
  | cons hd tl ih =>
    intro a i g
    obtain ⟨j, h2⟩ := hd
    have hlen : a + 300 * (((j, h2) :: tl).length : Int) =
        (a + 300) + 300 * (tl.length : Int) := by
      simp only [List.length_cons]
      push_cast
      ring
    simp only [buildPipes, List.cons_append, hlen, ih (a + 300) i g]
    rfl

/-- `dropWhile` keeps a chain whose head is still on screen. -/
theorem bp_dropWhile_keep {a : Int} (ha : 0 ≤ a + 80) (l : List (Nat × Int)) :
    (buildPipes a l).dropWhile deadPipe = buildPipes a l := by
  cases l with
  | nil => rfl
  | cons hd tl =>
    obtain ⟨i, g⟩ := hd
    simp only [buildPipes, List.dropWhile_cons]
    rw [if_neg]
    simp only [deadPipe, PipePair.rightEdge, decide_eq_true_eq]
    omega

/-- `dropWhile` removes exactly the head of a chain whose head has
left the screen while the second element has not. -/
theorem bp_dropWhile_drop1 {a : Int} (ha : a + 80 < 0) (hb : 0 ≤ a + 380)
    (i : Nat) (g : Int) (l : List (Nat × Int)) :
    (buildPipes a ((i, g) :: l)).dropWhile deadPipe = buildPipes (a + 300) l := by
  simp only [buildPipes, List.dropWhile_cons]
  rw [if_pos]
  · exact bp_dropWhile_keep (by omega) l
  · simp only [deadPipe, PipePair.rightEdge, decide_eq_true_eq]
    omega

/-- Elements of a chain: abscissa at least the base, fixed geometry,
identity drawn from the index list. -/
theorem bp_mem (l : List (Nat × Int)) : ∀ (a : Int), ∀ p ∈ buildPipes a l,
    a ≤ p.x ∧ p.width = 80 ∧ p.gap = 200 ∧ p.speed = 4 ∧ p.id ∈ l.map Prod.fst := by
  induction l with
  | nil => intro a p hp; simp [buildPipes] at hp
  | cons hd tl ih =>
    intro a p hp
    obtain ⟨i, g⟩ := hd
    simp only [buildPipes, List.mem_cons] at hp
    rcases hp with hpe | hpt
    · rw [hpe]
      exact ⟨le_refl a, rfl, rfl, rfl, by simp⟩
    · obtain ⟨hx, hw, hg, hs, hid⟩ := ih (a + 300) p hpt
      exact ⟨by omega, hw, hg, hs, by simp [hid]⟩

/-! ### The scoring loop (towards C1) -/

/-- A scoring pass over pipes that are all unpassed matches nothing. -/
theorem sm_nil_of_no_pass {birdLeft : Int} (L : List PipePair) :
    ∀ last : Option Nat, (∀ p ∈ L, ¬ (p.rightEdge < birdLeft)) →
    scoreMatches birdLeft L last = [] := by
  induction L with
  | nil => intro last h; rfl
  | cons hd tl ih =>
    intro last h
    simp only [scoreMatches]
    rw [if_neg]
    · exact ih last fun p hp => h p (List.mem_cons_of_mem _ hp)
    · intro hc
      exact h hd (List.mem_cons_self _ _) hc.1

/-- A scoring pass over a list whose tail is unpassed matches the
head alone, exactly when it is passed and not the last-scored pipe. -/
theorem sm_cons_char {birdLeft : Int} (hd : PipePair) (tl : List PipePair)
    (last : Option Nat) (htl : ∀ p ∈ tl, ¬ (p.rightEdge < birdLeft)) :
    scoreMatches birdLeft (hd :: tl) last =
      if hd.rightEdge < birdLeft ∧ last ≠ some hd.id then [hd.id] else [] := by
  simp only [scoreMatches]
  by_cases hc : hd.rightEdge < birdLeft ∧ last ≠ some hd.id
  · rw [if_pos hc, if_pos hc, sm_nil_of_no_pass tl _ htl]
  · rw [if_neg hc, if_neg hc, sm_nil_of_no_pass tl _ htl]

/-- The scoring loop of `main` adds one point per matched pipe and
leaves the last-scored reference at the last matched pipe. -/
theorem foldl_scorePass (birdLeft : Int) (L : List PipePair) :
    ∀ (s : Nat) (last : Option Nat),
    L.foldl (scorePass birdLeft) (s, last) =
      (s + (scoreMatches birdLeft L last).length,
        lastMatch last (scoreMatches birdLeft L last)) := by
  induction L with
  | nil => intro s last; simp [scoreMatches, lastMatch]
  | cons hd tl ih =>
    intro s last
    simp only [List.foldl_cons, scoreMatches, scorePass]
    by_cases hc : hd.rightEdge < birdLeft ∧ last ≠ some hd.id
    · rw [if_pos hc, if_pos hc, ih (s + 1) (some hd.id)]
      simp only [List.length_cons, lastMatch]
      have harith : s + 1 + (scoreMatches birdLeft tl (some hd.id)).length =
          s + ((scoreMatches birdLeft tl (some hd.id)).length + 1) := by omega
      rw [harith]
    · rw [if_neg hc, if_neg hc, ih s last]

/-- `PipeManager.update` does not change the configuration fields. -/
theorem update_cfg (m : PipeManager) :
    m.update.gap = m.gap ∧ m.update.pipeWidth = m.pipeWidth ∧
    m.update.speed = m.speed ∧ m.update.spawnDistance = m.spawnDistance ∧
    m.update.spawnIntervalFrames = m.spawnIntervalFrames := by
  simp only [PipeManager.update]
  split <;> exact ⟨rfl, rfl, rfl, rfl, rfl⟩

/-- The identity counter never decreases across an update. -/
theorem update_nextId_mono (m : PipeManager) : m.nextId ≤ m.update.nextId := by
  simp only [PipeManager.update]
  split
  · exact Nat.le_succ _
  · exact le_refl _

/-- The game configuration is preserved by an update. -/
theorem gameCfg_update (m : PipeManager) (h : gameCfg m) : gameCfg m.update := by
  obtain ⟨h1, h2, h3, h4, h5⟩ := h
  obtain ⟨u1, u2, u3, u4, u5⟩ := update_cfg m
  exact ⟨by rw [u1, h1], by rw [u2, h2], by rw [u3, h3], by rw [u4, h4], by rw [u5, h5]⟩

/-- Structure of one update of a game-configured, shape-invariant
stream: either no pipe is removed and the chain is the old one moved
left by 4 (with at most one freshly spawned pipe appended), or the
head has just left the screen and exactly it is removed. -/
theorem pm_update_struct (m : PipeManager) (hcfg : gameCfg m)
    (a : Int) (l : List (Nat × Int))
    (hp : m.pipes = buildPipes a l) (hl : l ≠ [])
    (hpw : l.Pairwise (fun p q => p.1 < q.1))
    (hid : ∀ p ∈ l, p.1 < m.nextId)
    (ha : -80 ≤ a)
    (hlast : a + 300 * ((l.length : Int) - 1) = 1500 - 4 * m.framesSinceLastSpawn)
    (hc0 : 0 ≤ m.framesSinceLastSpawn) (hc74 : m.framesSinceLastSpawn ≤ 74) :
    pmInv m.update ∧
    ∃ app : List (Nat × Int),
      (∀ ig ∈ app, ig.1 = m.nextId) ∧
      ((-76 ≤ a ∧ m.update.pipes = buildPipes (a - 4) (l ++ app) ∧ l ++ app ≠ []) ∨
        (a < -76 ∧ m.update.pipes = buildPipes (a + 296) (l.tail ++ app) ∧
          l.tail ++ app ≠ [])) := by
  obtain ⟨hgap, hw, hs, hd, hi⟩ := hcfg
  obtain ⟨⟨i0, g0⟩, rest, rfl⟩ := List.exists_cons_of_ne_nil hl
  have hrl : a + 300 * (rest.length : Int) = 1500 - 4 * m.framesSinceLastSpawn := by
    simp only [List.length_cons] at hlast
    push_cast at hlast
    omega
  have hcfg2 : gameCfg m.update := gameCfg_update m ⟨hgap, hw, hs, hd, hi⟩
  have hmoved : m.pipes.map movePipe = buildPipes (a - 4) ((i0, g0) :: rest) := by
    rw [hp, bp_map_move]
  by_cases hsp : m.framesSinceLastSpawn + 1 ≥ m.spawnIntervalFrames
  · -- spawning tick: the counter is exactly 74
    have hc : m.framesSinceLastSpawn = 74 := by rw [hi] at hsp; omega
    obtain ⟨h0, hpipes, hnid, hrid⟩ := update_spawn_eq m
      (by rw [hp]; exact bp_ne_nil (List.cons_ne_nil _ _) a) hsp
    have hlastx : (((m.pipes.map movePipe).getLast?).map PipePair.x).getD 0 =
        (a - 4) + 300 * (rest.length : Int) := by
      rw [hmoved, bp_getLast_x]
    have hnewx : max ((((m.pipes.map movePipe).getLast?).map PipePair.x).getD 0 +
        m.spawnDistance) (SCREEN_WIDTH + 100) = 1500 := by
      rw [hlastx, hd]
      have h15 : a - 4 + 300 * (rest.length : Int) + 300 = 1500 := by omega
      rw [h15]
      norm_num [SCREEN_WIDTH]
    rw [hnewx, hw, hgap, hs] at hpipes
    have hmk : mkPipePair m.nextId 1500 80 200 4 (m.rng m.rngIdx) =
        { id := m.nextId, x := (a - 4) + 300 * ((((i0, g0) :: rest).length : Int)),
          width := 80,
          gapTop := (mkPipePair m.nextId 1500 80 200 4 (m.rng m.rngIdx)).gapTop,
          gap := 200, speed := 4 } := by
      have hx : (a - 4) + 300 * ((((i0, g0) :: rest).length : Int)) = 1500 := by
        simp only [List.length_cons]
        push_cast
        omega
      rw [hx]
      rfl
    rw [hmoved, hmk, bp_append] at hpipes
    set gnew := (mkPipePair m.nextId 1500 80 200 4 (m.rng m.rngIdx)).gapTop with hgnew
    have happ : ∀ ig ∈ [(m.nextId, gnew)], (ig : Nat × Int).1 = m.nextId := by
      intro ig hig
      rw [List.mem_singleton.mp hig]
    by_cases hrem : -76 ≤ a
    · -- head survives
      have hkeep : m.update.pipes =
          buildPipes (a - 4) (((i0, g0) :: rest) ++ [(m.nextId, gnew)]) := by
        rw [hpipes, bp_dropWhile_keep (by omega)]
      refine ⟨⟨hcfg2, a - 4, ((i0, g0) :: rest) ++ [(m.nextId, gnew)], hkeep, by simp, ?_,
          ?_, by omega, ?_, ?_, ?_⟩,
        [(m.nextId, gnew)], happ, Or.inl ⟨hrem, hkeep, by simp⟩⟩
      · rw [List.pairwise_append]
        refine ⟨hpw, List.pairwise_singleton _ _, ?_⟩
        intro p hpm q hq
        rw [List.mem_singleton.mp hq]
        exact hid p hpm
      · intro p hpm
        rw [hnid]
        rcases List.mem_append.mp hpm with h1 | h1
        · exact Nat.lt_succ_of_lt (hid p h1)
        · rw [List.mem_singleton.mp h1]
          exact Nat.lt_succ_self _
      · rw [h0]
        simp only [List.length_append, List.length_cons, List.length_nil]
        push_cast
        omega
      · rw [h0]
      · rw [h0]; omega
    · -- head is dropped
      push_neg at hrem
      have hca : (((i0, g0) :: rest) ++ [(m.nextId, gnew)]) =
          (i0, g0) :: (rest ++ [(m.nextId, gnew)]) := by simp
      have hdrop : m.update.pipes = buildPipes (a + 296) (rest ++ [(m.nextId, gnew)]) := by
        rw [hpipes, hca, bp_dropWhile_drop1 (by omega) (by omega)]
        have h296 : a - 4 + 300 = a + 296 := by ring
        rw [h296]
      refine ⟨⟨hcfg2, a + 296, rest ++ [(m.nextId, gnew)], hdrop, by simp, ?_, ?_,
          by omega, ?_, ?_, ?_⟩,
        [(m.nextId, gnew)], happ, Or.inr ⟨hrem, hdrop, by simp⟩⟩
      · rw [List.pairwise_append]
        refine ⟨(List.pairwise_cons.mp hpw).2, List.pairwise_singleton _ _, ?_⟩
        intro p hpm q hq
        rw [List.mem_singleton.mp hq]
        exact hid p (List.mem_cons_of_mem _ hpm)
      · intro p hpm
        rw [hnid]
        rcases List.mem_append.mp hpm with h1 | h1
        · exact Nat.lt_succ_of_lt (hid p (List.mem_cons_of_mem _ h1))
        · rw [List.mem_singleton.mp h1]
          exact Nat.lt_succ_self _
      · rw [h0]
        simp only [List.length_append, List.length_cons, List.length_nil]
        push_cast
        omega
      · rw [h0]
      · rw [h0]; omega
  · -- non-spawning tick
    have hlt : m.framesSinceLastSpawn + 1 < 75 := by rw [hi] at hsp; omega
    obtain ⟨h0, hpipes, hnid, hrid⟩ := update_no_spawn_eq m (fun hcon => hsp hcon.1)
    rw [hmoved] at hpipes
    by_cases hrem : -76 ≤ a
    · -- head survives
      have hkeep : m.update.pipes = buildPipes (a - 4) ((i0, g0) :: rest) := by
        rw [hpipes, bp_dropWhile_keep (by omega)]
      refine ⟨⟨hcfg2, a - 4, (i0, g0) :: rest, hkeep, List.cons_ne_nil _ _, hpw, ?_,
          by omega, ?_, ?_, ?_⟩,
        [], by intro ig hig; simp at hig, Or.inl ⟨hrem, by rw [List.append_nil]; exact hkeep,
          by simp⟩⟩
      · intro p hpm
        rw [hnid]
        exact hid p hpm
      · rw [h0]
        simp only [List.length_cons]
        push_cast
        omega
      · rw [h0]; omega
      · rw [h0]; omega
    · -- head is dropped; the chain cannot be a singleton here
      push_neg at hrem
      have hrest : rest ≠ [] := by
        intro hre
        rw [hre] at hrl
        simp at hrl
        omega
      have hdrop : m.update.pipes = buildPipes (a + 296) rest := by
        rw [hpipes, bp_dropWhile_drop1 (by omega) (by omega)]
        have h296 : a - 4 + 300 = a + 296 := by ring
        rw [h296]
      obtain ⟨⟨j1, gj⟩, rest2, hre2⟩ := List.exists_cons_of_ne_nil hrest
      refine ⟨⟨hcfg2, a + 296, rest, hdrop, hrest, (List.pairwise_cons.mp hpw).2, ?_,
          by omega, ?_, ?_, ?_⟩,
        [], by intro ig hig; simp at hig, Or.inr ⟨hrem, by rw [List.append_nil]; exact hdrop,
          by rw [List.append_nil]; exact hrest⟩⟩
      · intro p hpm
        rw [hnid]
        exact hid p (List.mem_cons_of_mem _ hpm)
      · rw [h0]
        rw [hre2] at hrl ⊢
        simp only [List.length_cons] at hrl ⊢
        push_cast at hrl ⊢
        omega
      · rw [h0]; omega
      · rw [h0]; omega

/-- The manager invariant is preserved by one update. -/
theorem pmInv_update (m : PipeManager) (h : pmInv m) : pmInv m.update := by
  obtain ⟨hcfg, a, l, hp, hl, hpw, hid, ha, hlast, hc0, hc74⟩ := h
  exact (pm_update_struct m hcfg a l hp hl hpw hid ha hlast hc0 hc74).1

/-- The freshly constructed game manager satisfies the invariant. -/
theorem pmInv_init (rng : Nat → Nat) : pmInv (PipeManager.init 200 80 4 300 rng) := by
  refine ⟨⟨rfl, rfl, rfl, rfl, rfl⟩,
    SCREEN_WIDTH + 100,
    [(0, (mkPipePair 0 (SCREEN_WIDTH + 100) 80 200 4 (rng 0)).gapTop),
     (1, (mkPipePair 1 (SCREEN_WIDTH + 100 + 300) 80 200 4 (rng 1)).gapTop),
     (2, (mkPipePair 2 (SCREEN_WIDTH + 100 + 2 * 300) 80 200 4 (rng 2)).gapTop)],
    rfl, by simp, ?_, ?_, by norm_num [SCREEN_WIDTH],
    by norm_num [SCREEN_WIDTH, PipeManager.init],
    by norm_num [PipeManager.init], by norm_num [PipeManager.init]⟩
  · refine List.pairwise_cons.mpr ⟨?_, List.pairwise_cons.mpr ⟨?_, ?_⟩⟩
    · intro q hq
      simp only [List.mem_cons, List.not_mem_nil, or_false] at hq
      rcases hq with h1 | h1 <;> (rw [h1]; norm_num)
    · intro q hq
      simp only [List.mem_cons, List.not_mem_nil, or_false] at hq
      rw [hq]
      norm_num
    · exact List.pairwise_singleton _ _
  · intro p hpm
    simp only [List.mem_cons, List.not_mem_nil, or_false] at hpm
    rcases hpm with h1 | h1 | h1 <;> (rw [h1]; norm_num [PipeManager.init])

/-- A reset of a game-configured manager satisfies the invariant. -/
theorem pmInv_reset (m : PipeManager) (hcfg : gameCfg m) : pmInv m.reset := by
  obtain ⟨hgap, hw, hs, hd, hi⟩ := hcfg
  have hpipes : m.reset.pipes = buildPipes (SCREEN_WIDTH + 100)
      [(m.nextId, (mkPipePair m.nextId (SCREEN_WIDTH + 100) 80 200 4 (m.rng m.rngIdx)).gapTop),
       (m.nextId + 1, (mkPipePair (m.nextId + 1) (SCREEN_WIDTH + 100 + 300) 80 200 4
          (m.rng (m.rngIdx + 1))).gapTop),
       (m.nextId + 2, (mkPipePair (m.nextId + 2) (SCREEN_WIDTH + 100 + 2 * 300) 80 200 4
          (m.rng (m.rngIdx + 2))).gapTop)] := by
    show [ mkPipePair m.nextId (SCREEN_WIDTH + 100) m.pipeWidth m.gap m.speed (m.rng m.rngIdx),
           mkPipePair (m.nextId + 1) (SCREEN_WIDTH + 100 + m.spawnDistance)
             m.pipeWidth m.gap m.speed (m.rng (m.rngIdx + 1)),
           mkPipePair (m.nextId + 2) (SCREEN_WIDTH + 100 + 2 * m.spawnDistance)
             m.pipeWidth m.gap m.speed (m.rng (m.rngIdx + 2)) ] = _
    rw [hw, hgap, hs, hd]
    rfl
  refine ⟨⟨hgap, hw, hs, hd, hi⟩, SCREEN_WIDTH + 100, _, hpipes, by simp, ?_, ?_,
    by norm_num [SCREEN_WIDTH],
    by norm_num [SCREEN_WIDTH, PipeManager.reset],
    by norm_num [PipeManager.reset], by norm_num [PipeManager.reset]⟩
  · refine List.pairwise_cons.mpr ⟨?_, List.pairwise_cons.mpr ⟨?_, ?_⟩⟩
    · intro q hq
      simp only [List.mem_cons, List.not_mem_nil, or_false] at hq
      rcases hq with h1 | h1 <;> (rw [h1]; omega)
    · intro q hq
      simp only [List.mem_cons, List.not_mem_nil, or_false] at hq
      rw [hq]
      omega
    · exact List.pairwise_singleton _ _
  · intro p hpm
    simp only [List.mem_cons, List.not_mem_nil, or_false] at hpm
    have hnid : m.reset.nextId = m.nextId + 3 := rfl
    rw [hnid]
    rcases hpm with h1 | h1 | h1 <;> (rw [h1]; omega)

/-- C8: for any number of ticks from construction with the game
configuration (`screenWidth = 800`, `spawnDistance = 300`), the
stream never holds more than `ceil(screenWidth / spawnDistance) + 3 =
6` pipe pairs, and after every tick no retained pipe has its trailing
edge left of `x = 0` (dead pipes are all removed on the tick they
die). -/
theorem stream_bound (rng : Nat → Nat) (t : Nat) :
    (PipeManager.update^[t] (PipeManager.init 200 80 4 300 rng)).pipes.length ≤
      (SCREEN_WIDTH.toNat + 300 - 1) / 300 + 3 ∧
    ∀ p ∈ (PipeManager.update^[t] (PipeManager.init 200 80 4 300 rng)).pipes,
      0 ≤ p.rightEdge := by
  have hinv : ∀ u : Nat, pmInv (PipeManager.update^[u] (PipeManager.init 200 80 4 300 rng)) := by
    intro u
    induction u with
    | zero => exact pmInv_init rng
    | succ n ih =>
      rw [Function.iterate_succ_apply']
      exact pmInv_update _ ih
  obtain ⟨hcfg, a, l, hp, hl, hpw, hid, ha, hlast, hc0, hc74⟩ := hinv t
  constructor
  · rw [hp, bp_length]
    have hbound : (SCREEN_WIDTH.toNat + 300 - 1) / 300 + 3 = 6 := by decide
    rw [hbound]
    omega
  · intro p hp2
    rw [hp] at hp2
    obtain ⟨hx, hw80, _, _, _⟩ := bp_mem l a p hp2
    show 0 ≤ p.x + p.width
    omega

/-! ### Characterisation of one round tick (C1) -/

/-- No pipe of a chain whose base has not yet reached the bird is
passed. -/
theorem bp_not_passed {a : Int} (ha : BIRD_LEFT ≤ a + 80) (l : List (Nat × Int)) :
    ∀ p ∈ buildPipes a l, ¬ (p.rightEdge < BIRD_LEFT) := by
  intro p hp
  obtain ⟨hx, hw80, _, _, _⟩ := bp_mem l a p hp
  show ¬ (p.x + p.width < BIRD_LEFT)
  omega

/-- In a shape-invariant chain only the head pipe can be passed: an
obstacle identity is passed exactly when it is the head identity and
the head has crossed the bird. -/
theorem passed_chain_char (m : PipeManager) (a : Int) (i0 : Nat) (g0 : Int)
    (l : List (Nat × Int)) (hp : m.pipes = buildPipes a ((i0, g0) :: l))
    (ha : -80 ≤ a) :
    ∀ o : Nat, passedIn m o ↔ (o = i0 ∧ a + 80 < BIRD_LEFT) := by
  intro o
  constructor
  · rintro ⟨p, hpm, hpid, hpass⟩
    rw [hp] at hpm
    simp only [buildPipes, List.mem_cons] at hpm
    rcases hpm with hpe | hpt
    · refine ⟨?_, ?_⟩
      · rw [← hpid, hpe]
      · have hre : p.rightEdge = a + 80 := by rw [hpe]; rfl
        rw [hre] at hpass
        exact hpass
    · exfalso
      have := bp_not_passed (a := a + 300) (by show BIRD_LEFT ≤ a + 300 + 80; unfold BIRD_LEFT; omega) l p hpt
      exact this hpass
  · rintro ⟨rfl, hpass⟩
    refine ⟨{ id := o, x := a, width := 80, gapTop := g0, gap := 200, speed := 4 },
      ?_, rfl, ?_⟩
    · rw [hp]
      exact List.mem_cons_self _ _
    · show a + 80 < BIRD_LEFT
      exact hpass

/-- Projections of one round tick: the pipe manager is updated, the
score grows by the number of matches, and the last-scored reference
moves to the last match. -/
theorem roundTick_eq (r : RoundState) :
    (roundTick r).pm = r.pm.update ∧
    (roundTick r).score = r.score + (tickMatches r).length ∧
    (roundTick r).lastPipePassed = lastMatch r.lastPipePassed (tickMatches r) := by
  refine ⟨rfl, ?_, ?_⟩
  · show ((r.pm.update).pipes.foldl (scorePass BIRD_LEFT) (r.score, r.lastPipePassed)).1 = _
    rw [foldl_scorePass]
    rfl
  · show ((r.pm.update).pipes.foldl (scorePass BIRD_LEFT) (r.score, r.lastPipePassed)).2 = _
    rw [foldl_scorePass]
    rfl

/-- One round tick preserves the round invariant; it scores at most
one pipe, adds the number of matches to the score, and an obstacle
identity matches exactly when this tick is the first on which it is
passed; a passed obstacle either stays passed or leaves the stream
for good. -/
theorem roundTick_char (r : RoundState) (h : roundInv r) :
    roundInv (roundTick r) ∧
    (roundTick r).score = r.score + (tickMatches r).length ∧
    (tickMatches r).length ≤ 1 ∧
    (∀ o : Nat, o ∈ tickMatches r ↔ (passedIn r.pm.update o ∧ ¬ passedIn r.pm o)) ∧
    (∀ o : Nat, passedIn r.pm o →
      passedIn r.pm.update o ∨ (o ∉ idsOf r.pm.update ∧ o < r.pm.update.nextId)) := by
  obtain ⟨⟨hcfg, a, l, hp, hl, hpw, hid, ha, hlast, hc0, hc74⟩, hiff, hile⟩ := h
  obtain ⟨⟨i0, g0⟩, rest, rfl⟩ := List.exists_cons_of_ne_nil hl
  have hBL : BIRD_LEFT = 70 := rfl
  have hrpm : (roundTick r).pm = r.pm.update := rfl
  have hrte := roundTick_eq r
  have hhead : r.pm.pipes.head? =
      some { id := i0, x := a, width := 80, gapTop := g0, gap := 200, speed := 4 } := by
    rw [hp]
    rfl
  have hiff0 : a + 80 < BIRD_LEFT ↔ r.lastPipePassed = some i0 := hiff _ hhead
  have hile0 : ∀ i, r.lastPipePassed = some i → i ≤ i0 := fun i hi => hile i hi _ hhead
  have hpreChar := passed_chain_char r.pm a i0 g0 rest hp ha
  have hi0nid : i0 < r.pm.nextId := hid _ (List.mem_cons_self _ _)
  obtain ⟨hinv2, app, happ, hcase⟩ := pm_update_struct r.pm hcfg a ((i0, g0) :: rest)
    hp (List.cons_ne_nil _ _) hpw hid ha hlast hc0 hc74
  rcases hcase with ⟨hge, hup, hne2⟩ | ⟨hlt2, hup, hne2⟩
  · -- the head pipe survives the update
    have hup2 : r.pm.update.pipes = buildPipes (a - 4) ((i0, g0) :: (rest ++ app)) := hup
    have hpostChar := passed_chain_char r.pm.update (a - 4) i0 g0 (rest ++ app) hup2
      (by omega)
    have hmt : tickMatches r =
        if (a - 4) + 80 < BIRD_LEFT ∧ r.lastPipePassed ≠ some i0 then [i0] else [] := by
      show scoreMatches BIRD_LEFT (r.pm.update).pipes r.lastPipePassed = _
      rw [hup2]
      show scoreMatches BIRD_LEFT
        ({ id := i0, x := a - 4, width := 80, gapTop := g0, gap := 200, speed := 4 } ::
          buildPipes (a - 4 + 300) (rest ++ app)) r.lastPipePassed = _
      rw [sm_cons_char _ _ _ (bp_not_passed (by omega) _)]
      rfl
    have hheadPost : (roundTick r).pm.pipes.head? =
        some { id := i0, x := a - 4, width := 80, gapTop := g0, gap := 200, speed := 4 } := by
      rw [hrpm, hup2]
      rfl
    by_cases hpre : a + 80 < BIRD_LEFT
    · -- the head was already passed before this tick: no match
      have hlastEq : r.lastPipePassed = some i0 := hiff0.mp hpre
      have hmt0 : tickMatches r = [] := by
        rw [hmt, if_neg]
        rintro ⟨h1, h2⟩
        exact h2 hlastEq
      have hlast2 : (roundTick r).lastPipePassed = some i0 := by
        rw [hrte.2.2, hmt0, lastMatch, hlastEq]
      refine ⟨⟨by rw [hrpm]; exact hinv2, ?_, ?_⟩, hrte.2.1, by rw [hmt0]; simp, ?_, ?_⟩
      · intro p hp2
        rw [hheadPost] at hp2
        cases Option.some_inj.mp hp2
        constructor
        · intro _
          exact hlast2
        · intro _
          show a - 4 + 80 < BIRD_LEFT
          omega
      · intro i hi p hp2
        rw [hheadPost] at hp2
        cases Option.some_inj.mp hp2
        rw [hlast2] at hi
        cases Option.some_inj.mp hi
        exact le_refl _
      · intro o
        rw [hmt0]
        simp only [List.not_mem_nil, false_iff]
        rintro ⟨hpo, hnpre⟩
        obtain ⟨ho, _⟩ := (hpostChar o).mp hpo
        exact hnpre ((hpreChar o).mpr ⟨ho, hpre⟩)
      · intro o hpo
        obtain ⟨ho, _⟩ := (hpreChar o).mp hpo
        subst ho
        exact Or.inl ((hpostChar o).mpr ⟨rfl, by omega⟩)
    · -- the head had not been passed before this tick
      have hlastNe : r.lastPipePassed ≠ some i0 := fun hc => hpre (hiff0.mpr hc)
      by_cases hpost : (a - 4) + 80 < BIRD_LEFT
      · -- first tick on which the head is passed: exactly one match
        have hmt1 : tickMatches r = [i0] := by rw [hmt, if_pos ⟨hpost, hlastNe⟩]
        have hlast2 : (roundTick r).lastPipePassed = some i0 := by
          rw [hrte.2.2, hmt1, lastMatch, lastMatch]
        refine ⟨⟨by rw [hrpm]; exact hinv2, ?_, ?_⟩, hrte.2.1, by rw [hmt1]; simp, ?_, ?_⟩
        · intro p hp2
          rw [hheadPost] at hp2
          cases Option.some_inj.mp hp2
          constructor
          · intro _
            exact hlast2
          · intro _
            exact hpost
        · intro i hi p hp2
          rw [hheadPost] at hp2
          cases Option.some_inj.mp hp2
          rw [hlast2] at hi
          cases Option.some_inj.mp hi
          exact le_refl _
        · intro o
          rw [hmt1]
          simp only [List.mem_singleton]
          constructor
          · rintro rfl
            refine ⟨(hpostChar o).mpr ⟨rfl, hpost⟩, ?_⟩
            intro hpo
            exact hpre ((hpreChar o).mp hpo).2
          · rintro ⟨hpo, _⟩
            exact ((hpostChar o).mp hpo).1
        · intro o hpo
          obtain ⟨_, hprepass⟩ := (hpreChar o).mp hpo
          exact absurd hprepass hpre
      · -- the head is still unpassed: no match
        have hmt0 : tickMatches r = [] := by
          rw [hmt, if_neg]
          rintro ⟨h1, _⟩
          exact hpost h1
        have hlast2 : (roundTick r).lastPipePassed = r.lastPipePassed := by
          rw [hrte.2.2, hmt0, lastMatch]
        refine ⟨⟨by rw [hrpm]; exact hinv2, ?_, ?_⟩, hrte.2.1, by rw [hmt0]; simp, ?_, ?_⟩
        · intro p hp2
          rw [hheadPost] at hp2
          cases Option.some_inj.mp hp2
          rw [hlast2]
          constructor
          · intro hcontra
            exact absurd hcontra hpost
          · intro hcontra
            exact absurd hcontra hlastNe
        · intro i hi p hp2
          rw [hheadPost] at hp2
          cases Option.some_inj.mp hp2
          rw [hlast2] at hi
          exact hile0 i hi
        · intro o
          rw [hmt0]
          simp only [List.not_mem_nil, false_iff]
          rintro ⟨hpo, _⟩
          exact hpost ((hpostChar o).mp hpo).2
        · intro o hpo
          obtain ⟨_, hprepass⟩ := (hpreChar o).mp hpo
          exact absurd hprepass hpre
  · -- the head pipe is removed by the update
    have hpre0 : a + 80 < BIRD_LEFT := by omega
    have hlastEq : r.lastPipePassed = some i0 := hiff0.mp hpre0
    have htail : ((i0, g0) :: rest).tail = rest := rfl
    rw [htail] at hup hne2
    obtain ⟨⟨j1, gj⟩, tl2, hre⟩ := List.exists_cons_of_ne_nil hne2
    rw [hre] at hup
    have hnopass : ∀ p ∈ (r.pm.update).pipes, ¬ (p.rightEdge < BIRD_LEFT) := by
      rw [hup]
      exact bp_not_passed (by omega) _
    have hmt0 : tickMatches r = [] := by
      show scoreMatches BIRD_LEFT (r.pm.update).pipes r.lastPipePassed = []
      exact sm_nil_of_no_pass _ _ hnopass
    have hlast2 : (roundTick r).lastPipePassed = some i0 := by
      rw [hrte.2.2, hmt0, lastMatch, hlastEq]
    have hj1 : i0 < j1 := by
      cases rest with
      | nil =>
        have happm : (j1, gj) ∈ app := by
          simp only [List.nil_append] at hre
          rw [hre]
          exact List.mem_cons_self _ _
        have := happ _ happm
        simp only at this
        rw [this]
        exact hi0nid
      | cons r1 rest2 =>
        have hr1 : r1 = (j1, gj) := by
          simp only [List.cons_append] at hre
          exact (List.cons_eq_cons.mp hre).1
        have := (List.pairwise_cons.mp hpw).1 r1 (List.mem_cons_self _ _)
        rw [hr1] at this
        exact this
    have hheadPost : (roundTick r).pm.pipes.head? =
        some { id := j1, x := a + 296, width := 80, gapTop := gj, gap := 200, speed := 4 } := by
      rw [hrpm, hup]
      rfl
    refine ⟨⟨by rw [hrpm]; exact hinv2, ?_, ?_⟩, hrte.2.1, by rw [hmt0]; simp, ?_, ?_⟩
    · intro p hp2
      rw [hheadPost] at hp2
      cases Option.some_inj.mp hp2
      rw [hlast2]
      constructor
      · intro hcontra
        have hc2 : a + 296 + 80 < BIRD_LEFT := hcontra
        exact absurd hc2 (by omega)
      · intro hcontra
        exfalso
        have hc2 : i0 = j1 := Option.some_inj.mp hcontra
        omega
    · intro i hi p hp2
      rw [hheadPost] at hp2
      cases Option.some_inj.mp hp2
      rw [hlast2] at hi
      cases Option.some_inj.mp hi
      exact le_of_lt hj1
    · intro o
      rw [hmt0]
      simp only [List.not_mem_nil, false_iff]
      rintro ⟨hpo, _⟩
      obtain ⟨p, hpm2, _, hpass⟩ := hpo
      exact hnopass p hpm2 hpass
    · intro o hpo
      obtain ⟨ho, _⟩ := (hpreChar o).mp hpo
      subst ho
      refine Or.inr ⟨?_, lt_of_lt_of_le hi0nid (update_nextId_mono r.pm)⟩
      intro hmem
      obtain ⟨p, hpm2, hpid⟩ := List.mem_map.mp hmem
      rw [hup] at hpm2
      obtain ⟨_, _, _, _, hpin⟩ := bp_mem _ _ p hpm2
      rw [hpid] at hpin
      have hpin2 : o ∈ (rest ++ app).map Prod.fst := by
        rw [hre]
        exact hpin
      rcases List.mem_append.mp (by
          rw [List.map_append] at hpin2
          exact hpin2) with h1 | h1
      · obtain ⟨q, hq, hqe⟩ := List.mem_map.mp h1
        have := (List.pairwise_cons.mp hpw).1 q hq
        omega
      · obtain ⟨q, hq, hqe⟩ := List.mem_map.mp h1
        have := happ q hq
        omega

/-- A fresh round (reset manager, score 0, cleared last-scored
reference) satisfies the round invariant. -/
theorem roundInv_start (m : PipeManager) (hcfg : gameCfg m) : roundInv (roundStart m) := by
  obtain ⟨hgap, hw, hs, hd, hi⟩ := hcfg
  refine ⟨pmInv_reset m ⟨hgap, hw, hs, hd, hi⟩, ?_, ?_⟩
  · intro p hp2
    have hh : (roundStart m).pm.pipes.head? =
        some (mkPipePair m.nextId (SCREEN_WIDTH + 100) m.pipeWidth m.gap m.speed
          (m.rng m.rngIdx)) := rfl
    rw [hh] at hp2
    cases Option.some_inj.mp hp2
    constructor
    · intro hc
      exfalso
      have hc2 : SCREEN_WIDTH + 100 + m.pipeWidth < BIRD_LEFT := hc
      rw [hw] at hc2
      have hSW : SCREEN_WIDTH = 800 := rfl
      have hBL : BIRD_LEFT = 70 := rfl
      omega
    · intro hc
      exact absurd hc (by simp [roundStart])
  · intro i hi
    exact absurd hi (by simp [roundStart])

/-- The round invariant holds after any number of round ticks. -/
theorem roundInv_run (m : PipeManager) (hcfg : gameCfg m) (t : Nat) :
    roundInv (roundRun m t) := by
  induction t with
  | zero => exact roundInv_start m hcfg
  | succ n ih =>
    rw [roundRun, Function.iterate_succ_apply']
    exact (roundTick_char _ ih).1

/-- Unfolding of one step of the round run. -/
theorem roundRun_succ (m : PipeManager) (t : Nat) :
    roundRun m (t + 1) = roundTick (roundRun m t) := by
  unfold roundRun
  rw [Function.iterate_succ_apply']

/-- The pipe manager of the next round state is the updated one. -/
theorem roundRun_pm_succ (m : PipeManager) (t : Nat) :
    (roundRun m (t + 1)).pm = (roundRun m t).pm.update := by
  rw [roundRun_succ]
  rfl

/-- Identities after an update come from the old stream or are the
fresh identity. -/
theorem idsOf_update_sub (m : PipeManager) :
    ∀ o ∈ idsOf m.update, o ∈ idsOf m ∨ o = m.nextId := by
  intro o ho
  obtain ⟨p, hp, hpe⟩ := List.mem_map.mp ho
  rcases mem_update_pipes m p hp with ⟨q, hq, hqe⟩ | ⟨xnew, hqe⟩
  · left
    refine List.mem_map.mpr ⟨q, hq, ?_⟩
    rw [← hpe, hqe]
    rfl
  · right
    rw [← hpe, hqe]
    rfl

/-- An identity that has left the stream and is below the counter
never reappears. -/
theorem gone_forever (m : PipeManager) (o : Nat) (t u : Nat) (htu : t ≤ u)
    (h1 : o ∉ idsOf (roundRun m t).pm) (h2 : o < (roundRun m t).pm.nextId) :
    o ∉ idsOf (roundRun m u).pm ∧ o < (roundRun m u).pm.nextId := by
  induction u, htu using Nat.le_induction with
  | base => exact ⟨h1, h2⟩
  | succ n hn ih =>
    obtain ⟨ih1, ih2⟩ := ih
    rw [roundRun_pm_succ]
    constructor
    · intro hmem
      rcases idsOf_update_sub _ o hmem with hc | hc
      · exact ih1 hc
      · omega
    · exact lt_of_lt_of_le ih2 (update_nextId_mono _)

/-- A passed obstacle is present in the stream. -/
theorem passedIn_mem_ids (m : PipeManager) (o : Nat) (h : passedIn m o) :
    o ∈ idsOf m := by
  obtain ⟨p, hp, hpe, _⟩ := h
  exact List.mem_map.mpr ⟨p, hp, hpe⟩

/-- Under the round invariant, a passed obstacle is below the identity
counter. -/
theorem passedIn_lt_nextId (r : RoundState) (h : roundInv r) (o : Nat)
    (hp : passedIn r.pm o) : o < r.pm.nextId := by
  obtain ⟨⟨hcfg, a, l, hpl, hl, hpw, hid, ha, hlast, hc0, hc74⟩, _, _⟩ := h
  obtain ⟨p, hpm, hpe, _⟩ := hp
  rw [hpl] at hpm
  obtain ⟨_, _, _, _, hin⟩ := bp_mem _ _ p hpm
  obtain ⟨q, hq, hqe⟩ := List.mem_map.mp hin
  have := hid q hq
  omega

/-- Once passed, an obstacle either remains passed or is gone from
the stream for good. -/
theorem passed_persists (m : PipeManager) (hm : gameCfg m) (o : Nat) (t u : Nat)
    (htu : t ≤ u) (hpo : passedIn (roundRun m t).pm o) :
    passedIn (roundRun m u).pm o ∨
      (o ∉ idsOf (roundRun m u).pm ∧ o < (roundRun m u).pm.nextId) := by
  induction u, htu using Nat.le_induction with
  | base => exact Or.inl hpo
  | succ n hn ih =>
    rcases ih with hpass | ⟨hgone, hlt⟩
    · have hchar := roundTick_char (roundRun m n) (roundInv_run m hm n)
      have hstep := hchar.2.2.2.2 o hpass
      rw [roundRun_pm_succ]
      exact hstep
    · exact Or.inr (gone_forever m o n (n + 1) (Nat.le_succ _) hgone hlt)

/-- C1: along any round (reset round context, then any number of
`PLAYING` ticks), the per-tick score increment equals the number of
matched obstacles, at most one obstacle matches per tick, an obstacle
scores exactly on the first tick on which its trailing edge is
strictly left of the flyer leading edge, and the last-scored
reference guarantees that each obstacle scores on at most one tick of
the round. -/
theorem score_once_per_obstacle (m : PipeManager) (hm : gameCfg m) (t : Nat) (o : Nat) :
    (roundRun m (t + 1)).score =
      (roundRun m t).score + (tickMatches (roundRun m t)).length ∧
    (tickMatches (roundRun m t)).length ≤ 1 ∧
    (o ∈ tickMatches (roundRun m t) ↔
      (passedIn (roundRun m (t + 1)).pm o ∧ ¬ passedIn (roundRun m t).pm o)) ∧
    (∀ u : Nat, o ∈ tickMatches (roundRun m t) → o ∈ tickMatches (roundRun m u) →
      t = u) := by
  have hchar : ∀ s : Nat, _ := fun s : Nat =>
    roundTick_char (roundRun m s) (roundInv_run m hm s)
  refine ⟨?_, ?_, ?_, ?_⟩
  · rw [roundRun_succ]
    exact (hchar t).2.1
  · exact (hchar t).2.2.1
  · rw [roundRun_pm_succ]
    exact (hchar t).2.2.2.1 o
  · have key : ∀ t2 u2 : Nat, t2 < u2 → o ∈ tickMatches (roundRun m t2) →
        o ∈ tickMatches (roundRun m u2) → False := by
      intro t2 u2 hlt ha1 ha2
      have hA := ((hchar t2).2.2.2.1 o).mp ha1
      have hB := ((hchar u2).2.2.2.1 o).mp ha2
      have hA1 : passedIn (roundRun m (t2 + 1)).pm o := by
        rw [roundRun_pm_succ]
        exact hA.1
      rcases passed_persists m hm o (t2 + 1) u2 (by omega) hA1 with hpass | ⟨hgone, hlt2⟩
      · exact hB.2 hpass
      · have hB1 : passedIn (roundRun m (u2 + 1)).pm o := by
          rw [roundRun_pm_succ]
          exact hB.1
        have hmem := passedIn_mem_ids _ o hB1
        exact (gone_forever m o u2 (u2 + 1) (Nat.le_succ _) hgone hlt2).1 hmem
    intro u h1 h2
    rcases Nat.lt_trichotomy t u with hlt | heq | hgt
    · exact (key t u hlt h1 h2).elim
    · exact heq
    · exact (key u t hgt h2 h1).elim

/-- Witness for `score_once_per_obstacle`: the game manager, first
tick, first obstacle of the round. -/
theorem score_once_per_obstacle_witness :
    (roundRun (PipeManager.init 200 80 4 300 (fun _ => 0)) 1).score =
      (roundRun (PipeManager.init 200 80 4 300 (fun _ => 0)) 0).score +
        (tickMatches (roundRun (PipeManager.init 200 80 4 300 (fun _ => 0)) 0)).length ∧
    (tickMatches (roundRun (PipeManager.init 200 80 4 300 (fun _ => 0)) 0)).length ≤ 1 ∧
    (3 ∈ tickMatches (roundRun (PipeManager.init 200 80 4 300 (fun _ => 0)) 0) ↔
      (passedIn (roundRun (PipeManager.init 200 80 4 300 (fun _ => 0)) 1).pm 3 ∧
        ¬ passedIn (roundRun (PipeManager.init 200 80 4 300 (fun _ => 0)) 0).pm 3)) ∧
    (∀ u : Nat, 3 ∈ tickMatches (roundRun (PipeManager.init 200 80 4 300 (fun _ => 0)) 0) →
      3 ∈ tickMatches (roundRun (PipeManager.init 200 80 4 300 (fun _ => 0)) u) → 0 = u) :=
  score_once_per_obstacle (PipeManager.init 200 80 4 300 (fun _ => 0))
    ⟨rfl, rfl, rfl, rfl, rfl⟩ 0 3

/-! ### The state machine of `main` (C5, C10, C2) -/

/-- The frame result state is the state passed to `contRun`. -/
theorem st_contRun (q : Bool) (s2 : MainState) : (contRun q s2).st = s2 := by
  unfold contRun
  split <;> rfl

/-- The menu branch never touches the high score. -/
theorem stepMenu_high (s : MainState) (i : FrameInput) :
    (stepMenu s i).highScore = s.highScore := by
  unfold stepMenu
  split_ifs <;> rfl

/-- The game-over branch never touches the high score. -/
theorem stepGameOver_high (s : MainState) (i : FrameInput) :
    (stepGameOver s i).highScore = s.highScore := by
  simp only [stepGameOver]
  split_ifs <;> rfl

/-- On a restart action the game-over branch resets the score and
keeps the high score. -/
theorem stepGameOver_restart (s : MainState) (i : FrameInput)
    (h : gameOverAction i = GAction.restart) :
    (stepGameOver s i).score = 0 ∧ (stepGameOver s i).highScore = s.highScore ∧
    (stepGameOver s i).phase = GState.playing ∧
    (stepGameOver s i).lastPipePassed = Option.none := by
  unfold stepGameOver
  rw [h]
  exact ⟨rfl, rfl, rfl, rfl⟩

/-- The playing branch either keeps phase and high score, or commits
`max highScore score` and moves to game over. -/
theorem stepPlayingCore_char (s : MainState) (i : FrameInput) :
    ((stepPlayingCore s i).phase = s.phase ∧
      (stepPlayingCore s i).highScore = s.highScore) ∨
    ((stepPlayingCore s i).phase = GState.gameOver ∧
      (stepPlayingCore s i).highScore = max s.highScore (stepPlayingCore s i).score) := by
  simp only [stepPlayingCore]
  split_ifs <;>
    first
      | (right; exact ⟨rfl, rfl⟩)
      | (left; exact ⟨rfl, rfl⟩)

/-- Per-frame high score facts: monotone; changed only on the
`PLAYING` to `GAME_OVER` transition; committed as
`max highScore score` there; restart resets the score, not the high
score. -/
theorem mainStep_high_char (s : MainState) (i : FrameInput) :
    s.highScore ≤ ((mainStep s i).st).highScore ∧
    (((mainStep s i).st).highScore ≠ s.highScore →
      s.phase = GState.playing ∧ ((mainStep s i).st).phase = GState.gameOver) ∧
    (s.phase = GState.playing → ((mainStep s i).st).phase = GState.gameOver →
      ((mainStep s i).st).highScore = max s.highScore ((mainStep s i).st).score) ∧
    (s.phase = GState.gameOver → gameOverAction i = GAction.restart →
      ((mainStep s i).st).score = 0 ∧
      ((mainStep s i).st).highScore = s.highScore) := by
  cases hph : s.phase
  case menu =>
    have hst : (mainStep s i).st = stepMenu s i := by
      simp only [mainStep, hph, st_contRun]
    rw [hst, stepMenu_high]
    refine ⟨le_refl _, fun hc => absurd rfl hc, ?_, ?_⟩
    · intro hc
      cases hc
    · intro hc
      cases hc
  case confirmExitMenu =>
    have hhigh : ((mainStep s i).st).highScore = s.highScore := by
      simp only [mainStep, hph]
      by_cases hy : i.confirmAct = GAction.yes
      · rw [if_pos hy]
        rfl
      · rw [if_neg hy]
        by_cases hn : i.confirmAct = GAction.no
        · rw [if_pos hn, st_contRun]
        · rw [if_neg hn, st_contRun]
    rw [hhigh]
    refine ⟨le_refl _, fun hc => absurd rfl hc, ?_, ?_⟩
    · intro hc
      cases hc
    · intro hc
      cases hc
  case confirmExitGameOver =>
    have hhigh : ((mainStep s i).st).highScore = s.highScore := by
      simp only [mainStep, hph]
      by_cases hy : i.confirmAct = GAction.yes
      · rw [if_pos hy]
        rfl
      · rw [if_neg hy]
        by_cases hn : i.confirmAct = GAction.no
        · rw [if_pos hn, st_contRun]
        · rw [if_neg hn, st_contRun]
    rw [hhigh]
    refine ⟨le_refl _, fun hc => absurd rfl hc, ?_, ?_⟩
    · intro hc
      cases hc
    · intro hc
      cases hc
  case gameOver =>
    have hst : (mainStep s i).st = stepGameOver s i := by
      simp only [mainStep, hph, st_contRun]
    rw [hst, stepGameOver_high]
    refine ⟨le_refl _, fun hc => absurd rfl hc, ?_, ?_⟩
    · intro hc
      cases hc
    · intro _ hact
      obtain ⟨h1, h2, _, _⟩ := stepGameOver_restart s i hact
      exact ⟨h1, rfl⟩
  case playing =>
    by_cases hesc : i.keys.esc
    · have hst : (mainStep s i).st =
          { s with bird := s.bird.movement, pm := s.pm.update } := by
        simp only [mainStep, hph, hesc, if_true, StepResult.st]
      rw [hst]
      refine ⟨le_refl _, fun hc => absurd rfl hc, ?_, ?_⟩
      · intro _ hc
        have hcp : s.phase = GState.gameOver := hc
        rw [hph] at hcp
        cases hcp
      · intro hc
        cases hc
    · have hst : (mainStep s i).st = stepPlayingCore s i := by
        simp only [mainStep, hph]
        rw [if_neg hesc, st_contRun]
      rw [hst]
      rcases stepPlayingCore_char s i with ⟨hpp, hhh⟩ | ⟨hpp, hhh⟩
      · rw [hhh]
        refine ⟨le_refl _, fun hc => absurd rfl hc, ?_, ?_⟩
        · intro _ hc
          rw [hpp, hph] at hc
          cases hc
        · intro hc
          cases hc
      · rw [hhh]
        refine ⟨le_max_left _ _, fun _ => ⟨rfl, hpp⟩, fun _ _ => rfl, ?_⟩
        intro hc
        cases hc

/-- C5: the high score is non-decreasing along any run of the main
loop; within one frame it changes only on the `PLAYING` to
`GAME_OVER` transition, where it becomes `max highScore score`; a
restart from game over resets the score to 0 and leaves the high
score unchanged. -/
theorem high_score_monotonic_commit :
    (∀ (s : MainState) (i : FrameInput),
      s.highScore ≤ ((mainStep s i).st).highScore ∧
      (((mainStep s i).st).highScore ≠ s.highScore →
        s.phase = GState.playing ∧ ((mainStep s i).st).phase = GState.gameOver) ∧
      (s.phase = GState.playing → ((mainStep s i).st).phase = GState.gameOver →
        ((mainStep s i).st).highScore = max s.highScore ((mainStep s i).st).score) ∧
      (s.phase = GState.gameOver → gameOverAction i = GAction.restart →
        ((mainStep s i).st).score = 0 ∧
        ((mainStep s i).st).highScore = s.highScore)) ∧
    (∀ (s0 : MainState) (ins : Nat → FrameInput) (t u : Nat), t ≤ u →
      ((runMain s0 ins t).st).highScore ≤ ((runMain s0 ins u).st).highScore) := by
  refine ⟨mainStep_high_char, ?_⟩
  intro s0 ins t u htu
  induction u, htu using Nat.le_induction with
  | base => exact le_refl _
  | succ n hn ih =>
    refine le_trans ih ?_
    show ((runMain s0 ins n).st).highScore ≤ ((runMain s0 ins (n + 1)).st).highScore
    cases hr : runMain s0 ins n with
    | running s =>
      have he : runMain s0 ins (n + 1) = mainStep s (ins n) := by
        show (match runMain s0 ins n with
          | .running s => mainStep s (ins n)
          | r => r) = _
        rw [hr]
      rw [he]
      exact (mainStep_high_char s (ins n)).1
    | finished s =>
      have he : runMain s0 ins (n + 1) = .finished s := by
        show (match runMain s0 ins n with
          | .running s => mainStep s (ins n)
          | r => r) = _
        rw [hr]
      rw [he]
    | exited c s =>
      have he : runMain s0 ins (n + 1) = .exited c s := by
        show (match runMain s0 ins n with
          | .running s => mainStep s (ins n)
          | r => r) = _
        rw [hr]
      rw [he]

/-- Witness for `high_score_monotonic_commit`: a restart frame from
game over and a two-frame run. -/
theorem high_score_monotonic_commit_witness :
    ((mainStep
        { phase := GState.gameOver, bird := mkBird 70 90,
          pm := PipeManager.init 200 80 4 300 (fun _ => 0),
          score := 5, highScore := 7, lastPipePassed := Option.none }
        { quit := false, menuAct := GAction.none, goAct := GAction.restart,
          confirmAct := GAction.none,
          keys := { esc := false, space := false, r := false, enter := false } }).st).score
      = 0 ∧
    ((mainStep
        { phase := GState.gameOver, bird := mkBird 70 90,
          pm := PipeManager.init 200 80 4 300 (fun _ => 0),
          score := 5, highScore := 7, lastPipePassed := Option.none }
        { quit := false, menuAct := GAction.none, goAct := GAction.restart,
          confirmAct := GAction.none,
          keys := { esc := false, space := false, r := false, enter := false } }).st).highScore
      = 7 ∧
    ((runMain
        { phase := GState.gameOver, bird := mkBird 70 90,
          pm := PipeManager.init 200 80 4 300 (fun _ => 0),
          score := 5, highScore := 7, lastPipePassed := Option.none }
        (fun _ =>
          { quit := false, menuAct := GAction.none, goAct := GAction.none,
            confirmAct := GAction.none,
            keys := { esc := false, space := false, r := false, enter := false } }) 0).st).highScore ≤
      ((runMain
        { phase := GState.gameOver, bird := mkBird 70 90,
          pm := PipeManager.init 200 80 4 300 (fun _ => 0),
          score := 5, highScore := 7, lastPipePassed := Option.none }
        (fun _ =>
          { quit := false, menuAct := GAction.none, goAct := GAction.none,
            confirmAct := GAction.none,
            keys := { esc := false, space := false, r := false, enter := false } }) 2).st).highScore := by
  obtain ⟨hc, _⟩ :=
    (high_score_monotonic_commit.1
      { phase := GState.gameOver, bird := mkBird 70 90,
        pm := PipeManager.init 200 80 4 300 (fun _ => 0),
        score := 5, highScore := 7, lastPipePassed := Option.none }
      { quit := false, menuAct := GAction.none, goAct := GAction.restart,
        confirmAct := GAction.none,
        keys := { esc := false, space := false, r := false, enter := false } }).2.2.2
      rfl rfl
  refine ⟨hc, ?_, ?_⟩
  · exact ((high_score_monotonic_commit.1
      { phase := GState.gameOver, bird := mkBird 70 90,
        pm := PipeManager.init 200 80 4 300 (fun _ => 0),
        score := 5, highScore := 7, lastPipePassed := Option.none }
      { quit := false, menuAct := GAction.none, goAct := GAction.restart,
        confirmAct := GAction.none,
        keys := { esc := false, space := false, r := false, enter := false } }).2.2.2
      rfl rfl).2
  · exact high_score_monotonic_commit.2 _ _ 0 2 (by omega)

/-- C10: while the state machine is in `PLAYING`, a frame on which the
escape key is held terminates the process immediately with exit
status 1, without entering a confirm-exit state and without
committing the high score: bird movement and the pipe update have run,
everything else of the frame (jump, scoring, collision, high-score
commit) has not. -/
theorem escape_during_playing_exits (s : MainState) (i : FrameInput)
    (h1 : s.phase = GState.playing) (h2 : i.keys.esc = true) :
    mainStep s i = StepResult.exited 1
      { s with bird := s.bird.movement, pm := s.pm.update } := by
  simp only [mainStep, h1, h2, if_true]

/-- Witness for `escape_during_playing_exits` at a concrete playing
state. -/
theorem escape_during_playing_exits_witness :
    mainStep
      { phase := GState.playing, bird := mkBird 70 90,
        pm := PipeManager.init 200 80 4 300 (fun _ => 0),
        score := 5, highScore := 7, lastPipePassed := Option.none }
      { quit := false, menuAct := GAction.none, goAct := GAction.none,
        confirmAct := GAction.none,
        keys := { esc := true, space := false, r := false, enter := false } } =
    StepResult.exited 1
      { phase := GState.playing, bird := (mkBird 70 90).movement,
        pm := (PipeManager.init 200 80 4 300 (fun _ => 0)).update,
        score := 5, highScore := 7, lastPipePassed := Option.none } :=
  escape_during_playing_exits _ _ rfl rfl

/-- C2 (code bug): `reset_game` intends to reset the bird to the
spawn point with zero velocity (its docstring and comments say so),
but the assignments `bird.__x = 70`, `bird.__y = 90`,
`bird.__velocity = 0.0` are written outside the `Bird` class, so
Python name mangling makes them create unused shadow attributes
instead of writing `_Bird__x`, `_Bird__y`, `_Bird__velocity`.  On a
restart from game over the new round starts as `PLAYING` with score
0, a re-seeded stream and a repositioned sprite rect, but the bird
keeps its previous position and velocity: here velocity 5 and
y 300 instead of 0 and 90. -/
theorem restart_does_not_reset_bird :
    (StepResult.st (mainStep
      { phase := GState.gameOver,
        bird := { x := 70, y := 300, velocity := 5, gravity := 1/2, jumpForce := -7,
                  width := 50, height := 50, rectX := 70, rectY := 300,
                  rectW := 50, rectH := 50 },
        pm := PipeManager.init 200 80 4 300 (fun _ => 0),
        score := 4, highScore := 9, lastPipePassed := some 2 }
      { quit := false, menuAct := GAction.none, goAct := GAction.restart,
        confirmAct := GAction.none,
        keys := { esc := false, space := false, r := false, enter := false } })).phase
      = GState.playing ∧
    (StepResult.st (mainStep
      { phase := GState.gameOver,
        bird := { x := 70, y := 300, velocity := 5, gravity := 1/2, jumpForce := -7,
                  width := 50, height := 50, rectX := 70, rectY := 300,
                  rectW := 50, rectH := 50 },
        pm := PipeManager.init 200 80 4 300 (fun _ => 0),
        score := 4, highScore := 9, lastPipePassed := some 2 }
      { quit := false, menuAct := GAction.none, goAct := GAction.restart,
        confirmAct := GAction.none,
        keys := { esc := false, space := false, r := false, enter := false } })).score = 0 ∧
    (StepResult.st (mainStep
      { phase := GState.gameOver,
        bird := { x := 70, y := 300, velocity := 5, gravity := 1/2, jumpForce := -7,
                  width := 50, height := 50, rectX := 70, rectY := 300,
                  rectW := 50, rectH := 50 },
        pm := PipeManager.init 200 80 4 300 (fun _ => 0),
        score := 4, highScore := 9, lastPipePassed := some 2 }
      { quit := false, menuAct := GAction.none, goAct := GAction.restart,
        confirmAct := GAction.none,
        keys := { esc := false, space := false, r := false, enter := false } })).bird.rectX
      = 70 ∧
    (StepResult.st (mainStep
      { phase := GState.gameOver,
        bird := { x := 70, y := 300, velocity := 5, gravity := 1/2, jumpForce := -7,
                  width := 50, height := 50, rectX := 70, rectY := 300,
                  rectW := 50, rectH := 50 },
        pm := PipeManager.init 200 80 4 300 (fun _ => 0),
        score := 4, highScore := 9, lastPipePassed := some 2 }
      { quit := false, menuAct := GAction.none, goAct := GAction.restart,
        confirmAct := GAction.none,
        keys := { esc := false, space := false, r := false, enter := false } })).bird.rectY
      = 90 ∧
    (StepResult.st (mainStep
      { phase := GState.gameOver,
        bird := { x := 70, y := 300, velocity := 5, gravity := 1/2, jumpForce := -7,
                  width := 50, height := 50, rectX := 70, rectY := 300,
                  rectW := 50, rectH := 50 },
        pm := PipeManager.init 200 80 4 300 (fun _ => 0),
        score := 4, highScore := 9, lastPipePassed := some 2 }
      { quit := false, menuAct := GAction.none, goAct := GAction.restart,
        confirmAct := GAction.none,
        keys := { esc := false, space := false, r := false, enter := false } })).bird.velocity
      = 5 ∧
    (StepResult.st (mainStep
      { phase := GState.gameOver,
        bird := { x := 70, y := 300, velocity := 5, gravity := 1/2, jumpForce := -7,
                  width := 50, height := 50, rectX := 70, rectY := 300,
                  rectW := 50, rectH := 50 },
        pm := PipeManager.init 200 80 4 300 (fun _ => 0),
        score := 4, highScore := 9, lastPipePassed := some 2 }
      { quit := false, menuAct := GAction.none, goAct := GAction.restart,
        confirmAct := GAction.none,
        keys := { esc := false, space := false, r := false, enter := false } })).bird.y
      = 300 := by
  refine ⟨rfl, rfl, rfl, rfl, by decide, by decide⟩

/-- Witness for `gap_never_touches_margins` with the game gap 200. -/
theorem gap_never_touches_margins_witness :
    (∀ t : Nat, ∀ p ∈ (PipeManager.update^[t] (PipeManager.init 200 80 4 300 (fun _ => 0))).pipes,
      MAX_PIPE_HEIGHT ≤ p.gapTop ∧ p.gapTop + p.gap ≤ SCREEN_HEIGHT - MAX_PIPE_HEIGHT) ∧
    (∀ m : PipeManager, m.gap = 200 →
      ∀ t : Nat, ∀ p ∈ (PipeManager.update^[t] m.reset).pipes,
        MAX_PIPE_HEIGHT ≤ p.gapTop ∧ p.gapTop + p.gap ≤ SCREEN_HEIGHT - MAX_PIPE_HEIGHT) :=
  gap_never_touches_margins 200 80 4 300 (fun _ => 0) (by norm_num)

/-- A `PLAYING` frame of `main` without escape performs exactly the
round-model scoring step on the round fragment of the state: the
bird never moves horizontally, so `bird.rect.left` is the constant
`BIRD_LEFT = 70` used by `roundTick`. -/
theorem playing_frame_scoring (s : MainState) (i : FrameInput)
    (hph : s.phase = GState.playing) (hesc : ¬ i.keys.esc = true)
    (hx : s.bird.x = 70) :
    ((mainStep s i).st).score =
      (roundTick
        { pm := s.pm, score := s.score,
          lastPipePassed := s.lastPipePassed }).score ∧
    ((mainStep s i).st).lastPipePassed =
      (roundTick
        { pm := s.pm, score := s.score,
          lastPipePassed := s.lastPipePassed }).lastPipePassed := by
  have hst : (mainStep s i).st = stepPlayingCore s i := by
    simp only [mainStep, hph]
    rw [if_neg hesc, st_contRun]
  have h70 : (s.bird.movement).rectX = (70 : Int) := by
    show ⌊s.bird.x⌋ = (70 : Int)
    rw [hx]
    decide
  have hrect : (if i.keys.space then (s.bird.movement).jump else s.bird.movement).rectX =
      BIRD_LEFT := by
    by_cases hsp : i.keys.space = true
    · rw [if_pos hsp]
      exact h70
    · rw [if_neg hsp]
      exact h70
  rw [hst]
  simp only [stepPlayingCore]
  rw [hrect]
  split_ifs <;> exact ⟨rfl, rfl⟩

/-- Witness for `playing_frame_scoring` at the spawn state. -/
theorem playing_frame_scoring_witness :
    ((mainStep
        { phase := GState.playing, bird := mkBird 70 90,
          pm := PipeManager.init 200 80 4 300 (fun _ => 0),
          score := 0, highScore := 0, lastPipePassed := Option.none }
        { quit := false, menuAct := GAction.none, goAct := GAction.none,
          confirmAct := GAction.none,
          keys := { esc := false, space := false, r := false, enter := false } }).st).score =
      (roundTick
        { pm := PipeManager.init 200 80 4 300 (fun _ => 0), score := 0,
          lastPipePassed := Option.none }).score ∧
    ((mainStep
        { phase := GState.playing, bird := mkBird 70 90,
          pm := PipeManager.init 200 80 4 300 (fun _ => 0),
          score := 0, highScore := 0, lastPipePassed := Option.none }
        { quit := false, menuAct := GAction.none, goAct := GAction.none,
          confirmAct := GAction.none,
          keys := { esc := false, space := false, r := false, enter := false } }).st).lastPipePassed =
      (roundTick
        { pm := PipeManager.init 200 80 4 300 (fun _ => 0), score := 0,
          lastPipePassed := Option.none }).lastPipePassed :=
  playing_frame_scoring _ _ rfl (by decide) (by decide)

end Flappy
